import Mathlib

/-!
Verification of the smart-home-monitor conversational query pipeline.

This file gives a shallow embedding of the parts of the repository that the
checked properties are about:

* the telemetry aggregation endpoint
  (`backend/telemetry-service/src/controllers/telemetry.ts`: `querySchema`,
  `queryTelemetry`),
* the chat-service intent translator
  (`backend/chat-service/src/controllers/chat.ts`: `METRIC_MAPPING`,
  `determineAggregation`, `convertIntentToQueryParams`),
* the chat pipeline (`generateAIResponse`, `generateAIResponseWithProvider`,
  `processMessage`, `saveMessage`, `getConversationHistory`),
* the provider factory status polling
  (`backend/chat-service/src/providers/ProviderFactory.ts`:
  `getAllProviderStatuses`, in its parallel, timeout-racing variant).

JavaScript builtins used by that code (`Number`, `Date` / ISO-8601 parsing,
`JSON.parse`, string lowercasing, SQL `ilike` and `date_trunc`) are embedded
as executable Lean functions over the input shapes the services actually
receive (query strings, ISO-8601 UTC datetimes, JSON texts).

Machine reals are modelled by `Rat` (the code only performs exact decimal
arithmetic on the values the claims are about), timestamps by integer
milliseconds since the Unix epoch.
-/

namespace SmartHome

/-! ## Exact rational arithmetic

The JavaScript numbers this pipeline computes with are embedded as `Rat`.
The arithmetic is expressed through `mkRat` and the `num`/`den` projections
(which the kernel evaluates), so that every definition in this file can be
run on concrete inputs inside proofs. -/

def qNeg (a : ℚ) : ℚ := mkRat (-a.num) a.den

def qAdd (a b : ℚ) : ℚ := mkRat (a.num * b.den + b.num * a.den) (a.den * b.den)

def qMul (a b : ℚ) : ℚ := mkRat (a.num * b.num) (a.den * b.den)

/-- Exact division of rationals (division by zero yields zero, as with
`Rat.div`; the embedding never divides by zero). -/
def qDiv (a b : ℚ) : ℚ :=
  if b.num < 0 then mkRat (-(a.num * b.den)) (a.den * (-b.num).toNat)
  else mkRat (a.num * b.den) (a.den * b.num.toNat)

def qLe (a b : ℚ) : Bool := a.num * b.den ≤ b.num * a.den

def qMin (a b : ℚ) : ℚ := if qLe a b then a else b

def qMax (a b : ℚ) : ℚ := if qLe a b then b else a

def qOfNat (n : Nat) : ℚ := mkRat n 1

/-! ## Basic string utilities -/

/-- ASCII lowercasing, the behaviour of JavaScript `toLowerCase()` and SQL
`ilike` case folding on the ASCII identifiers this system manipulates. -/
def asciiLowerChar (c : Char) : Char :=
  if 'A' ≤ c ∧ c ≤ 'Z' then Char.ofNat (c.toNat + 32) else c

def asciiLower (s : String) : String :=
  String.mk (s.data.map asciiLowerChar)

/-- JavaScript `String.prototype.trim()` (ASCII whitespace). -/
def jsTrim (s : String) : String :=
  String.mk (((s.data.dropWhile fun c => c.isWhitespace).reverse.dropWhile
    fun c => c.isWhitespace).reverse)

/-- Boolean test that `pat` occurs contiguously inside `l`. -/
def listInfix (pat : List Char) : List Char → Bool
  | [] => List.isPrefixOf pat []
  | c :: rest => List.isPrefixOf pat (c :: rest) || listInfix pat rest

/-- Case-insensitive substring containment, the semantics of SQL
`ilike '%pat%'` used by the aggregation query's device filters. -/
def containsCI (s pat : String) : Bool :=
  listInfix (asciiLower pat).data (asciiLower s).data

/-- Plain (case-sensitive) substring containment. -/
def containsSub (s pat : String) : Bool :=
  listInfix pat.data s.data

/-! ## JavaScript `Number` coercion

`z.coerce.number()` applies JavaScript `Number(input)` to the raw query-string
value.  We model its behaviour on the strings an HTTP query layer delivers:
optional sign, decimal digits, optional fractional part, optional exponent;
the empty string coerces to `0`; anything else is `NaN` (modelled as `none`,
which the zod number validator then rejects). -/

def digitsToNat (l : List Char) : Nat :=
  l.foldl (fun acc c => 10 * acc + (c.toNat - '0'.toNat)) 0

def allDigits (l : List Char) : Bool :=
  l.all (fun c => c.isDigit)

/-- Parse the digit prefix of a character list, returning digits and rest. -/
def spanDigits (l : List Char) : List Char × List Char :=
  (l.takeWhile Char.isDigit, l.dropWhile Char.isDigit)

/-- Value of an integer-part/fraction-part pair as a rational. -/
def decimalValue (intPart fracPart : List Char) : ℚ :=
  mkRat (digitsToNat intPart * 10 ^ fracPart.length + digitsToNat fracPart)
    (10 ^ fracPart.length)

/-- Apply a base-10 exponent to a rational. -/
def applyExp10 (q : ℚ) (e : Int) : ℚ :=
  if 0 ≤ e then qMul q (mkRat (10 ^ e.toNat) 1) else qDiv q (mkRat (10 ^ (-e).toNat) 1)

/-- Split a leading sign character off a numeral tail: `-1` for a minus,
`+1` otherwise, together with the remaining characters. -/
def splitSign (l : List Char) : Int × List Char :=
  if l.head? = some '-' then (-1, l.tail)
  else if l.head? = some '+' then (1, l.tail)
  else (1, l)

/-- Parse the optional exponent suffix (`e`/`E`, optional sign, digits). -/
def parseExponent (l : List Char) : Option Int :=
  match l with
  | [] => some 0
  | 'e' :: rest | 'E' :: rest =>
    let se := splitSign rest
    if se.2 ≠ [] ∧ allDigits se.2 then some (se.1 * digitsToNat se.2) else none
  | _ => none

/-- JavaScript `Number(s)` on a decimal numeral string (`none` = `NaN`). -/
def jsNumber (s : String) : Option ℚ :=
  let l := (jsTrim s).data
  match l with
  | [] => some 0
  | _ =>
    let sb := splitSign l
    let body := sb.2
    let signed : ℚ → ℚ := fun q => if sb.1 < 0 then qNeg q else q
    let (intPart, rest1) := spanDigits body
    match rest1 with
    | '.' :: rest2 =>
      let (fracPart, rest3) := spanDigits rest2
      if intPart = [] ∧ fracPart = [] then none
      else
        (parseExponent rest3).map fun e =>
          signed (applyExp10 (decimalValue intPart fracPart) e)
    | _ =>
      if intPart = [] then none
      else
        (parseExponent rest1).map fun e =>
          signed (applyExp10 (decimalValue intPart []) e)

/-! ## ISO-8601 UTC datetimes and epoch milliseconds

Used both by zod's `z.string().datetime()` validator (which requires the full
`YYYY-MM-DDTHH:mm:ss(.fff...)Z` shape with a real calendar date) and by the
JavaScript `new Date(s).getTime()` parse in `determineAggregation` (which also
accepts the date-only `YYYY-MM-DD` shape). -/

structure DateTimeParts where
  year : Nat
  month : Nat
  day : Nat
  hour : Nat
  minute : Nat
  second : Nat
  millis : Nat
  deriving DecidableEq

def isLeapYear (y : Nat) : Bool :=
  (y % 4 = 0 && y % 100 ≠ 0) || y % 400 = 0

def daysInMonth (y m : Nat) : Nat :=
  if m = 2 then (if isLeapYear y then 29 else 28)
  else if m = 4 ∨ m = 6 ∨ m = 9 ∨ m = 11 then 30
  else 31

/-- Read exactly `n` digits from the front of a character list. -/
def takeDigits (n : Nat) (l : List Char) : Option (Nat × List Char) :=
  let pre := l.take n
  if pre.length = n ∧ allDigits pre then some (digitsToNat pre, l.drop n) else none

/-- Parse `YYYY-MM-DD`, returning the remaining characters. -/
def parseDatePart (l : List Char) : Option ((Nat × Nat × Nat) × List Char) := do
  let (y, r1) ← takeDigits 4 l
  match r1 with
  | '-' :: r2 => do
    let (m, r3) ← takeDigits 2 r2
    match r3 with
    | '-' :: r4 => do
      let (d, r5) ← takeDigits 2 r4
      if 1 ≤ m ∧ m ≤ 12 ∧ 1 ≤ d ∧ d ≤ daysInMonth y m then
        some ((y, m, d), r5)
      else none
    | _ => none
  | _ => none

/-- Parse `HH:mm:ss` with an optional `.fff...` fraction, then `Z`, at end. -/
def parseTimePartZ (l : List Char) : Option (Nat × Nat × Nat × Nat) := do
  let (h, r1) ← takeDigits 2 l
  match r1 with
  | ':' :: r2 => do
    let (mi, r3) ← takeDigits 2 r2
    match r3 with
    | ':' :: r4 => do
      let (s, r5) ← takeDigits 2 r4
      if h ≤ 23 ∧ mi ≤ 59 ∧ s ≤ 59 then
        match r5 with
        | ['Z'] => some (h, mi, s, 0)
        | '.' :: r6 =>
          let (frac, r7) := spanDigits r6
          if frac ≠ [] ∧ r7 = ['Z'] then
            -- JavaScript keeps millisecond precision: first three fraction
            -- digits, right-padded with zeros.
            let f3 := frac.take 3
            some (h, mi, s, digitsToNat (f3 ++ List.replicate (3 - f3.length) '0'))
          else none
        | _ => none
      else none
    | _ => none
  | _ => none

/-- Parse a full `YYYY-MM-DDTHH:mm:ss(.fff...)Z` datetime string; this is the
shape accepted by `z.string().datetime()` (no offset variant configured, so
only the `Z` suffix is allowed). -/
def parseDatetimeZ (s : String) : Option DateTimeParts := do
  let ((y, m, d), rest) ← parseDatePart s.data
  match rest with
  | 'T' :: r => do
    let (h, mi, sec, ms) ← parseTimePartZ r
    some ⟨y, m, d, h, mi, sec, ms⟩
  | _ => none

/-- Validity predicate of the zod `datetime()` refinement on a string. -/
def isValidDatetimeZ (s : String) : Bool :=
  (parseDatetimeZ s).isSome

/-- Days from the civil epoch 1970-01-01 (Howard Hinnant's algorithm). -/
def daysFromCivil (y m d : Int) : Int :=
  let adjYear := y - (if m ≤ 2 then 1 else 0)
  let cycle := Int.fdiv adjYear 400
  let yearOfCycle := adjYear - cycle * 400
  let dayOfYear := Int.fdiv (153 * (m + (if 2 < m then -3 else 9)) + 2) 5 + d - 1
  let dayOfCycle := yearOfCycle * 365 + Int.fdiv yearOfCycle 4 -
    Int.fdiv yearOfCycle 100 + dayOfYear
  cycle * 146097 + dayOfCycle - 719468

/-- Civil date (year, month, day) from days since 1970-01-01. -/
def civilFromDays (z : Int) : Int × Int × Int :=
  let shifted := z + 719468
  let cycle := Int.fdiv shifted 146097
  let dayOfCycle := shifted - cycle * 146097
  let yearOfCycle := Int.fdiv
    (dayOfCycle - Int.fdiv dayOfCycle 1460 + Int.fdiv dayOfCycle 36524 -
      Int.fdiv dayOfCycle 146096) 365
  let rawYear := cycle * 400 + yearOfCycle
  let leapDays := Int.fdiv yearOfCycle 4 - Int.fdiv yearOfCycle 100
  let dayOfYear := dayOfCycle - 365 * yearOfCycle - leapDays
  let shiftedMonth := Int.fdiv (5 * dayOfYear + 2) 153
  let day := dayOfYear - Int.fdiv (153 * shiftedMonth + 2) 5 + 1
  let month := shiftedMonth + (if shiftedMonth < 10 then 3 else -9)
  (rawYear + (if month ≤ 2 then 1 else 0), month, day)

/-- Epoch milliseconds of a parsed UTC datetime. -/
def epochMsOfParts (p : DateTimeParts) : Int :=
  daysFromCivil p.year p.month p.day * 86400000
    + p.hour * 3600000 + p.minute * 60000 + p.second * 1000 + p.millis

/-- JavaScript `new Date(s).getTime()` on an ISO-8601 UTC string: the full
datetime shape, or the date-only `YYYY-MM-DD` shape (interpreted as UTC
midnight).  `none` models an invalid date (`NaN`). -/
def jsDateMs (s : String) : Option Int :=
  match parseDatetimeZ s with
  | some p => some (epochMsOfParts p)
  | none =>
    match parseDatePart s.data with
    | some ((y, m, d), []) => some (daysFromCivil y m d * 86400000)
    | _ => none

/-- PostgreSQL `date_trunc(unit, ts)` on epoch milliseconds, for the four
bucket units the aggregation endpoint produces.  Weeks are Monday-aligned as
in PostgreSQL (1970-01-01 was a Thursday, so Monday boundaries sit at
`day ≡ -3 (mod 7)`). -/
def dateTruncMs (unit : String) (ms : Int) : Int :=
  if unit = "day" then Int.fdiv ms 86400000 * 86400000
  else if unit = "week" then
    let days := Int.fdiv ms 86400000
    (Int.fdiv (days + 3) 7 * 7 - 3) * 86400000
  else if unit = "month" then
    let days := Int.fdiv ms 86400000
    let c := civilFromDays days
    daysFromCivil c.1 c.2.1 1 * 86400000
  else Int.fdiv ms 3600000 * 3600000

/-! ## JSON values and `JSON.parse`

The intent-extraction step of `generateAIResponse` runs `JSON.parse` on the
model's completion text; a parse failure is a thrown `SyntaxError`.  We embed
JSON values and an executable parser for the JSON grammar (`none` = throw). -/

inductive Json where
  | null
  | bool (flag : Bool)
  | num (value : ℚ)
  | str (text : String)
  | arr (items : List Json)
  | obj (entries : List (String × Json))

/-- Opening curly brace character (written by code to keep JSON texts out of
the Lean source). -/
def lbrace : Char := Char.ofNat 123

/-- Closing curly brace character. -/
def rbrace : Char := Char.ofNat 125

def isJsonWs (c : Char) : Bool :=
  c = ' ' || c = '\t' || c = '\n' || c = '\r'

def skipWs (l : List Char) : List Char :=
  l.dropWhile isJsonWs

def hexVal (c : Char) : Option Nat :=
  let n := c.toNat
  if 48 ≤ n ∧ n ≤ 57 then some (n - 48)
  else if 97 ≤ n ∧ n ≤ 102 then some (n - 87)
  else if 65 ≤ n ∧ n ≤ 70 then some (n - 55)
  else none

/-- Parse the body of a JSON string literal (after the opening quote),
handling the JSON escape sequences and rejecting raw control characters. -/
def parseStrAux (acc : List Char) : List Char → Option (String × List Char)
  | [] => none
  | '"' :: rest => some (String.mk acc.reverse, rest)
  | '\\' :: esc =>
    match esc with
    | '"' :: r => parseStrAux ('"' :: acc) r
    | '\\' :: r => parseStrAux ('\\' :: acc) r
    | '/' :: r => parseStrAux ('/' :: acc) r
    | 'b' :: r => parseStrAux (Char.ofNat 8 :: acc) r
    | 'f' :: r => parseStrAux (Char.ofNat 12 :: acc) r
    | 'n' :: r => parseStrAux ('\n' :: acc) r
    | 'r' :: r => parseStrAux ('\r' :: acc) r
    | 't' :: r => parseStrAux ('\t' :: acc) r
    | 'u' :: a :: b :: c :: d :: r =>
      match hexVal a, hexVal b, hexVal c, hexVal d with
      | some ha, some hb, some hc, some hd =>
        parseStrAux (Char.ofNat (((ha * 16 + hb) * 16 + hc) * 16 + hd) :: acc) r
      | _, _, _, _ => none
    | _ => none
  | c :: rest => if c.toNat < 32 then none else parseStrAux (c :: acc) rest

/-- Parse a JSON number (sign, integer part without leading zeros, optional
fraction, optional exponent). -/
def parseJsonNumber (l : List Char) : Option (ℚ × List Char) :=
  let neg : Bool := l.head? == some '-'
  let l1 := if neg then l.tail else l
  let signed : ℚ → ℚ := fun q => if neg then qNeg q else q
  match spanDigits l1 with
  | ([], _) => none
  | (ds, rest) =>
    if 1 < ds.length ∧ ds.head? = some '0' then none
    else
      let withExp (fs : List Char) (l2 : List Char) : Option (ℚ × List Char) :=
        match l2 with
        | 'e' :: r | 'E' :: r =>
          let se := splitSign r
          match spanDigits se.2 with
          | ([], _) => none
          | (eds, r2) =>
            some (signed (applyExp10 (decimalValue ds fs) (se.1 * digitsToNat eds)), r2)
        | _ => some (signed (decimalValue ds fs), l2)
      match rest with
      | '.' :: r =>
        (match spanDigits r with
         | ([], _) => none
         | (fs, r2) => withExp fs r2)
      | _ => withExp [] rest

mutual

/-- Fuel-indexed recursive-descent parser for a JSON value. -/
def parseJsonValue : Nat → List Char → Option (Json × List Char)
  | 0, _ => none
  | fuel + 1, input =>
    match skipWs input with
    | [] => none
    | c :: r =>
      if c = lbrace then
        match skipWs r with
        | [] => none
        | c' :: r' =>
          if c' = rbrace then some (.obj [], r')
          else (parseObjItems fuel [] (c' :: r')).map fun p => (.obj p.1, p.2)
      else if c = '[' then
        match skipWs r with
        | ']' :: r' => some (.arr [], r')
        | r' => (parseArrItems fuel [] r').map fun p => (.arr p.1, p.2)
      else if c = '"' then
        (parseStrAux [] r).map fun p => (.str p.1, p.2)
      else
        let body := c :: r
        if List.isPrefixOf "true".data body then some (.bool true, body.drop 4)
        else if List.isPrefixOf "false".data body then some (.bool false, body.drop 5)
        else if List.isPrefixOf "null".data body then some (.null, body.drop 4)
        else (parseJsonNumber body).map fun p => (.num p.1, p.2)

/-- Parse the comma-separated items of a JSON array (after `[`). -/
def parseArrItems : Nat → List Json → List Char → Option (List Json × List Char)
  | 0, _, _ => none
  | fuel + 1, acc, l => do
    let (v, rest) ← parseJsonValue fuel l
    match skipWs rest with
    | ',' :: r => parseArrItems fuel (v :: acc) r
    | ']' :: r => some ((v :: acc).reverse, r)
    | _ => none

/-- Parse the comma-separated `"key": value` fields of a JSON object. -/
def parseObjItems : Nat → List (String × Json) → List Char →
    Option (List (String × Json) × List Char)
  | 0, _, _ => none
  | fuel + 1, acc, l =>
    match skipWs l with
    | '"' :: r => do
      let (k, r1) ← parseStrAux [] r
      match skipWs r1 with
      | ':' :: r2 => do
        let (v, r3) ← parseJsonValue fuel r2
        match skipWs r3 with
        | ',' :: r4 => parseObjItems fuel ((k, v) :: acc) r4
        | c :: r4 =>
          if c = rbrace then some (((k, v) :: acc).reverse, r4) else none
        | [] => none
      | _ => none
    | _ => none

end

/-- JavaScript `JSON.parse` (`none` models a thrown `SyntaxError`). -/
def jsonParse (s : String) : Option Json :=
  match parseJsonValue (2 * s.length + 8) s.data with
  | some (v, rest) => if skipWs rest = [] then some v else none
  | none => none

/-- JavaScript property access `j.k`: `.error` models the `TypeError` thrown
when reading a property of `null`; `.ok none` models `undefined` (property
access on a non-object or a missing key). JSON objects with duplicate keys
keep the last occurrence. -/
def jsProp (j : Json) (k : String) : Except String (Option Json) :=
  match j with
  | .null => .error "TypeError: Cannot read properties of null"
  | .obj fields => .ok ((fields.reverse.find? fun p => p.1 == k).map (·.2))
  | _ => .ok none

/-- JavaScript truthiness of a possibly-`undefined` value. -/
def jsTruthy : Option Json → Bool
  | none => false
  | some .null => false
  | some (.bool b) => b
  | some (.num q) => decide (q ≠ 0)
  | some (.str s) => decide (s ≠ "")
  | some (.arr _) => true
  | some (.obj _) => true

/-! ## The chat-service intent translator

Embedding of the pure translation layer of
`backend/chat-service/src/controllers/chat.ts`:
`METRIC_MAPPING`, `determineAggregation` and `convertIntentToQueryParams`. -/

/-- Ceiling of the integer division `a / b` for positive `b`; the value
`Math.ceil((end - start) / MS_PER_DAY)` computes on exact millisecond
differences. -/
def ceilDivInt (a b : Int) : Int :=
  -(Int.fdiv (-a) b)

/-- Metric mapping from LLM intent to database columns (the `METRIC_MAPPING`
object literal, modelled by its own properties). -/
def METRIC_MAPPING : List (String × String) :=
  [("energyConsumption", "power_consumption"),
   ("powerConsumption", "power_consumption"),
   ("energy", "power_consumption"),
   ("power", "power_consumption"),
   ("voltage", "voltage"),
   ("current", "current")]

/-- Canonical metric columns accepted by the query layer. -/
def canonicalMetrics : List String :=
  ["power_consumption", "voltage", "current"]

/-- Device abbreviation table of `convertIntentToQueryParams` (the
`deviceMappings` object literal, modelled by its own properties). -/
def deviceMappings : List (String × String) :=
  [("ac", "air_conditioner"),
   ("aircon", "air_conditioner"),
   ("air con", "air_conditioner"),
   ("fridge", "refrigerator"),
   ("light", "lights"),
   ("fan", "ceiling_fan"),
   ("heater", "space_heater"),
   ("washing machine", "washing_machine"),
   ("washer", "washing_machine"),
   ("dryer", "clothes_dryer")]

/-- Full device-type names recognized by `convertIntentToQueryParams`. -/
def fullDeviceTypes : List String :=
  ["air_conditioner", "refrigerator", "lights", "ceiling_fan", "space_heater",
   "washing_machine", "clothes_dryer"]

/-- `determineAggregation(startDate, endDate)`: picks the bucket from the
ceiling of the day difference.  An unparseable date makes `diffInDays` `NaN`
in JavaScript, whose comparisons are all false, so the function falls through
to `monthly`. -/
def determineAggregation (startDate endDate : String) : String :=
  match jsDateMs startDate, jsDateMs endDate with
  | some s, some e =>
    let diffInDays := ceilDivInt (e - s) 86400000
    if diffInDays ≤ 2 then "hourly"
    else if diffInDays ≤ 14 then "daily"
    else if diffInDays ≤ 90 then "weekly"
    else "monthly"
  | _, _ => "monthly"

/-- The shape of the LLM intent object that `convertIntentToQueryParams`
reads (absent JSON fields are `none`; `timeRange` carries its `start` and
`end` strings). -/
structure Intent where
  device : Option String := none
  timeRange : Option (String × String) := none
  metrics : Option (List String) := none
  aggregation : Option String := none
  deriving DecidableEq

/-- The `params` record assembled by `convertIntentToQueryParams` (fields
that the function never sets stay `none`). -/
structure TranslatedParams where
  deviceType : Option String := none
  deviceName : Option String := none
  startDate : Option String := none
  endDate : Option String := none
  aggregation : Option String := none
  metrics : Option (List String) := none
  functions : List String := []
  deriving DecidableEq

/-- The `// Map device info` block of `convertIntentToQueryParams`:
JavaScript truthiness makes an absent or empty-string `device` (and a
case-insensitive `'all'`) skip the whole block. -/
def mapDeviceInfo (device : Option String) : TranslatedParams :=
  match device with
  | some d =>
    if d ≠ "" ∧ asciiLower d ≠ "all" then
      let deviceLower := asciiLower d
      match deviceMappings.lookup deviceLower with
      | some t => { deviceType := some t }
      | none =>
        if deviceLower ∈ fullDeviceTypes then
          { deviceType := some deviceLower }
        else if containsSub d " " then
          { deviceName := some d }
        else
          { deviceName := some d }
    else {}
  | none => {}

/-- The `// Map time range` block: copies the range and fills `aggregation`
with the truthy explicit value or the computed rule. -/
def mapTimeRange (p : TranslatedParams) (timeRange : Option (String × String))
    (aggregation : Option String) : TranslatedParams :=
  match timeRange with
  | some (s, e) =>
    let withDates := { p with startDate := some s, endDate := some e }
    match aggregation with
    | some a =>
      if a ≠ "" then { withDates with aggregation := some a }
      else { withDates with aggregation := some (determineAggregation s e) }
    | none => { withDates with aggregation := some (determineAggregation s e) }
  | none => p

/-- The `// Map metrics` block: alias through `METRIC_MAPPING`, then filter
to the canonical columns. -/
def mapMetrics (p : TranslatedParams) (metrics : Option (List String)) :
    TranslatedParams :=
  match metrics with
  | some ms =>
    { p with
      metrics := some ((ms.map fun m => (METRIC_MAPPING.lookup m).getD m).filter
        fun m => m ∈ canonicalMetrics) }
  | none => p

/-- `convertIntentToQueryParams(intent)` from the chat controller: the three
mapping blocks in order, then the fixed default `functions`. -/
def convertIntentToQueryParams (intent : Intent) : TranslatedParams :=
  { mapMetrics (mapTimeRange (mapDeviceInfo intent.device) intent.timeRange
        intent.aggregation) intent.metrics with
    functions := ["avg", "sum", "min", "max"] }

/-! ## The telemetry aggregation endpoint

Embedding of `backend/telemetry-service/src/controllers/telemetry.ts`:
the zod `querySchema` and the `queryTelemetry` controller (query building,
execution against the devices/readings tables, and row reshaping). -/

/-- A path segment of a zod issue (object key or array index). -/
inductive PathSeg where
  | key (s : String)
  | idx (n : Nat)
  deriving DecidableEq

/-- One field-level issue reported by a failed zod parse. -/
structure ZodIssue where
  path : List PathSeg
  message : String
  deriving DecidableEq

/-- The raw query string parameters of a `GET /api/telemetry/query` request
(every HTTP query value arrives as a string; repeated keys as string lists). -/
structure RawQuery where
  deviceName : Option String := none
  deviceType : Option String := none
  metrics : Option (List String) := none
  startDate : Option String := none
  endDate : Option String := none
  aggregation : Option String := none
  functions : Option (List String) := none
  limit : Option String := none
  offset : Option String := none
  deriving DecidableEq

def AGGREGATION_FUNCTIONS : List String := ["avg", "sum", "min", "max"]

def aggregationEnum : List String := ["hourly", "daily", "weekly", "monthly"]

/-- The value produced by a successful `querySchema.parse`. -/
structure QueryParams where
  deviceName : Option String
  deviceType : Option String
  metrics : List String
  startDate : String
  endDate : String
  aggregation : Option String
  functions : List String
  limit : ℚ
  offset : ℚ
  deriving DecidableEq

/-- Enum issues for the elements of an array field. -/
def enumArrayIssues (field : String) (enum : List String) (l : List String) :
    List ZodIssue :=
  l.enum.filterMap fun p =>
    if p.2 ∈ enum then none
    else some ⟨[.key field, .idx p.1], "Invalid enum value"⟩

/-- Issues of a datetime field (`z.string().datetime()`). -/
def datetimeIssues (field : String) (v : Option String) : List ZodIssue :=
  match v with
  | none => [⟨[.key field], "Required"⟩]
  | some s => if isValidDatetimeZ s then [] else [⟨[.key field], "Invalid datetime"⟩]

/-- Issues of a coerced number field (`z.coerce.number()`, i.e. JavaScript
`Number(input)`, rejected when the result is `NaN`). -/
def coerceNumberIssues (field : String) (v : Option String) : List ZodIssue :=
  match v with
  | none => []
  | some s =>
    match jsNumber s with
    | some _ => []
    | none => [⟨[.key field], "Expected number, received nan"⟩]

/-- All issues collected by `querySchema.parse` on a raw query. -/
def querySchemaIssues (raw : RawQuery) : List ZodIssue :=
  (match raw.metrics with
   | none => [⟨[.key "metrics"], "Required"⟩]
   | some l =>
     enumArrayIssues "metrics" canonicalMetrics l ++
       (if l.length < 1 then
         [⟨[.key "metrics"], "Array must contain at least 1 element(s)"⟩]
        else []))
  ++ datetimeIssues "startDate" raw.startDate
  ++ datetimeIssues "endDate" raw.endDate
  ++ (match raw.aggregation with
      | none => []
      | some a =>
        if a ∈ aggregationEnum then []
        else [⟨[.key "aggregation"], "Invalid enum value"⟩])
  ++ (match raw.functions with
      | none => []
      | some l => enumArrayIssues "functions" AGGREGATION_FUNCTIONS l)
  ++ coerceNumberIssues "limit" raw.limit
  ++ coerceNumberIssues "offset" raw.offset

/-- The parsed value (meaningful only when `querySchemaIssues raw = []`):
optional fields keep their raw value, `functions` defaults to `["avg"]`,
`limit`/`offset` coerce through `Number` with defaults `100`/`0`. -/
def buildQueryParams (raw : RawQuery) : QueryParams where
  deviceName := raw.deviceName
  deviceType := raw.deviceType
  metrics := raw.metrics.getD []
  startDate := raw.startDate.getD ""
  endDate := raw.endDate.getD ""
  aggregation := raw.aggregation
  functions := raw.functions.getD ["avg"]
  limit := (raw.limit.bind jsNumber).getD 100
  offset := (raw.offset.bind jsNumber).getD 0

/-- `querySchema.parse(req.query)`: throws the collected issues (`.error`) or
returns the parsed params. -/
def querySchemaParse (raw : RawQuery) : Except (List ZodIssue) QueryParams :=
  match querySchemaIssues raw with
  | [] => .ok (buildQueryParams raw)
  | issues => .error issues

/-- A row of the `devices` table. -/
structure Device where
  id : String
  name : String
  type : String
  user_id : String
  deriving DecidableEq

/-- A row of the `telemetry_data` table (timestamps in epoch milliseconds;
metric columns nullable). -/
structure Reading where
  device_id : String
  timestamp : Int
  power_consumption : Option ℚ := none
  voltage : Option ℚ := none
  current : Option ℚ := none
  deriving DecidableEq

/-- The time-series store visible to the aggregation query. -/
structure Db where
  devices : List Device
  readings : List Reading
  deriving DecidableEq

def metricValue (r : Reading) : String → Option ℚ
  | "power_consumption" => r.power_consumption
  | "voltage" => r.voltage
  | "current" => r.current
  | _ => none

/-- Bucket unit chosen by `queryTelemetry` from the aggregation value. -/
def unitOf (aggregation : String) : String :=
  if aggregation = "daily" then "day"
  else if aggregation = "weekly" then "week"
  else if aggregation = "monthly" then "month"
  else "hour"

/-- An optional `ilike '%pat%'` filter; JavaScript truthiness makes an empty
string skip the filter (`if (deviceName) query.where(...)`). -/
def ilikeFilter (filt : Option String) (value : String) : Bool :=
  match filt with
  | none => true
  | some pat => if pat = "" then true else containsCI value pat

/-- The join produced by the query: `telemetry_data join devices on
telemetry_data.device_id = devices.id`, filtered by `devices.user_id =
userId`, `timestamp between startDate and endDate` (inclusive) and the
optional case-insensitive substring device filters. -/
def joinedRows (db : Db) (userId : String) (sMs eMs : Int)
    (dName dType : Option String) : List (Reading × Device) :=
  (db.readings.map fun r =>
    (db.devices.filter fun d =>
      r.device_id == d.id && d.user_id == userId &&
        decide (sMs ≤ r.timestamp) && decide (r.timestamp ≤ eMs) &&
        ilikeFilter dName d.name && ilikeFilter dType d.type).map
      fun d => (r, d)).flatten

/-- The `group by (date_trunc(unit, timestamp), devices.id, devices.name,
devices.type)` key. -/
structure GroupKey where
  timeBucket : Int
  deviceId : String
  deviceName : String
  deviceType : String
  deriving DecidableEq

def keyOf (unit : String) (rd : Reading × Device) : GroupKey :=
  ⟨dateTruncMs unit rd.1.timestamp, rd.2.id, rd.2.name, rd.2.type⟩

/-- First-occurrence deduplication (the distinct group keys of the result
set, in join order). -/
def dedupAux {α : Type} [DecidableEq α] (seen : List α) (rows : List α) :
    List α :=
  match rows with
  | [] => []
  | r0 :: rest =>
    if r0 ∈ seen then dedupAux seen rest else r0 :: dedupAux (r0 :: seen) rest

def dedupFirst {α : Type} [DecidableEq α] (rows : List α) : List α :=
  dedupAux [] rows

/-- Stable insertion into a bucket-ascending list (`order by time_bucket
asc`; ties keep join order, a deterministic refinement of the unspecified
SQL tie order). -/
def insertByBucket (k : GroupKey) : List GroupKey → List GroupKey
  | [] => [k]
  | x :: xs =>
    if x.timeBucket ≤ k.timeBucket then x :: insertByBucket k xs
    else k :: x :: xs

def sortByBucket (l : List GroupKey) : List GroupKey :=
  l.foldr insertByBucket []

/-- SQL aggregate over the non-null values of a column within one group
(`NULL` on an empty value set). -/
def aggApply (fn : String) (vals : List ℚ) : Option ℚ :=
  match vals with
  | [] => none
  | v :: vs =>
    if fn = "avg" then some (qDiv (vs.foldl qAdd v) (qOfNat (vs.length + 1)))
    else if fn = "sum" then some (vs.foldl qAdd v)
    else if fn = "min" then some (vs.foldl qMin v)
    else if fn = "max" then some (vs.foldl qMax v)
    else none

def toUpperChar (c : Char) : Char :=
  if 'a' ≤ c ∧ c ≤ 'z' then Char.ofNat (c.toNat - 32) else c

/-- Snake-case to camel-case conversion applied by `knexSnakeCaseMappers` to
returned column aliases. -/
def camelAux : List Char → List Char
  | [] => []
  | '_' :: c :: rest => toUpperChar c :: camelAux rest
  | ['_'] => []
  | c :: rest => c :: camelAux rest

def camelOfSnake (s : String) : String :=
  String.mk (camelAux s.data)

/-- The nested `metrics` object of one transformed row: insertion-ordered
keys, each holding insertion-ordered `(function, value)` entries. -/
def MetricsObj : Type := List (String × List (String × ℚ))

instance : DecidableEq MetricsObj := by
  unfold MetricsObj
  infer_instance

def insertMetricVal (obj : MetricsObj) (mk : String) (fnv : String × ℚ) :
    MetricsObj :=
  match obj with
  | [] => [(mk, [fnv])]
  | (k, vs) :: rest =>
    if k = mk then (k, vs ++ [fnv]) :: rest
    else (k, vs) :: insertMetricVal rest mk fnv

/-- The `device` sub-object of a transformed row. -/
structure AggRowDevice where
  id : String
  name : String
  type : String
  deriving DecidableEq

/-- One element of the `data` array returned by `queryTelemetry`.  The
`metrics` keys are the camel-cased column prefixes recovered by the
`^(.+?)(Avg|Sum|Min|Max|Count)$` match on the mapped aliases (the five
suffixes end in distinct letters, so the match strips exactly the
capitalized function name). -/
structure AggRow where
  device : AggRowDevice
  timestamp : Int
  metrics : MetricsObj
  deriving DecidableEq

/-- Build one transformed row from the group of joined rows sharing a key:
one aggregate per requested (metric, function) pair, null aggregates
omitted. -/
def buildRow (ms fns : List String) (group : List (Reading × Device))
    (k : GroupKey) : AggRow :=
  let metricsObj := ms.foldl (fun acc metric =>
    fns.foldl (fun acc2 fn =>
      match aggApply fn (group.filterMap fun rd => metricValue rd.1 metric) with
      | none => acc2
      | some v => insertMetricVal acc2 (camelOfSnake metric) (fn, v)) acc) []
  ⟨⟨k.deviceId, k.deviceName, k.deviceType⟩, k.timeBucket, metricsObj⟩

/-- The aggregation query of `queryTelemetry`, as a function of the fields it
reads (note: `limit` and `offset` are not among them). -/
def runAggCore (userId : String) (dName dType : Option String)
    (ms : List String) (startDate endDate : String) (agg : Option String)
    (fns : List String) (db : Db) : List AggRow :=
  let aggregation := agg.getD "hourly"
  let unit := unitOf aggregation
  let sMs := (jsDateMs startDate).getD 0
  let eMs := (jsDateMs endDate).getD 0
  let joined := joinedRows db userId sMs eMs dName dType
  let keys := sortByBucket (dedupFirst (joined.map (keyOf unit)))
  keys.map fun k => buildRow ms fns (joined.filter fun rd => keyOf unit rd == k) k

def runAggregation (userId : String) (p : QueryParams) (db : Db) : List AggRow :=
  runAggCore userId p.deviceName p.deviceType p.metrics p.startDate p.endDate
    p.aggregation p.functions db

/-- The `details` field of an error response: a zod error renders its issue
list (field-level detail), any other error its message. -/
inductive ErrorDetails where
  | validation (issues : List ZodIssue)
  | message (m : String)
  deriving DecidableEq

/-- A response body sent by one of the embedded endpoints. -/
inductive ResponseBody where
  | queryData (data : List AggRow) (timeStart timeEnd : String)
      (aggregation : String)
  | queryError (error : String) (details : ErrorDetails)
  | chat (response : String) (sessionId : Option String)
  | serverError (message : String)
  deriving DecidableEq

structure HttpResponse where
  status : Nat
  body : ResponseBody
  deriving DecidableEq

/-- The `queryTelemetry` controller: parse the query (a zod throw is caught
by the single catch-all, which answers 400 with the error detail), run the
aggregation (a database throw hits the same catch-all), else answer 200 with
the transformed rows.  `dbResult` carries the database contents or the error
the pooled query would throw. -/
def queryTelemetry (userId : String) (raw : RawQuery)
    (dbResult : Except String Db) : HttpResponse :=
  match querySchemaParse raw with
  | .error issues => ⟨400, .queryError "Invalid query parameters" (.validation issues)⟩
  | .ok p =>
    match dbResult with
    | .error e => ⟨400, .queryError "Invalid query parameters" (.message e)⟩
    | .ok db =>
      let aggregation := p.aggregation.getD "hourly"
      ⟨200, .queryData (runAggregation userId p db) p.startDate p.endDate aggregation⟩

/-- The `data` array of a query response (empty for error responses). -/
def dataOf (resp : HttpResponse) : List AggRow :=
  match resp.body with
  | .queryData d _ _ _ => d
  | _ => []

/-! ## The chat pipeline

Embedding of the chat controller's response generation.  The two LLM
completions and the telemetry fetch are network effects; a pipeline run is a
function of an oracle recording each call's outcome (`.error` = the promise
rejected / the call threw).  Each oracle field `Option String` is the
`choices[0].message?.content` of one completion (`none` = missing content). -/

def APOLOGY : String :=
  "Sorry, I encountered an error processing your request. Please try again."

def DEFAULT_INTENT_JSON : String := "\x7b\"needsTelemetry\": false\x7d"

def NO_DATA_FALLBACK : String := "I found some data for you."

def PLAIN_FALLBACK : String := "I\x27m not sure how to respond to that."

/-- Outcomes of the external calls made by one `generateAIResponse` run: the
intent-extraction completion, the telemetry fetch, the telemetry-grounded
completion and the plain-chat completion. -/
structure LegacyOracle where
  intentContent : Except String (Option String)
  telemetryResult : Except String String
  telemetryContent : Except String (Option String)
  plainContent : Except String (Option String)

/-- The string handed to `JSON.parse`:
`completion.choices[0].message?.content || '...needsTelemetry false...'`
(a missing or empty content is falsy and selects the default). -/
def effectiveIntentText (content : Option String) : String :=
  match content with
  | none => DEFAULT_INTENT_JSON
  | some s => if s = "" then DEFAULT_INTENT_JSON else s

/-- A completion content with a `|| fallback` default. -/
def contentOrDefault (content : Option String) (fallback : String) : String :=
  match content with
  | none => fallback
  | some s => if s = "" then fallback else s

/-- The body of `generateAIResponse`'s `try` block; `.error` is a throw that
the surrounding catch turns into the apology string. -/
def generateAIResponseCore (o : LegacyOracle) : Except String String := do
  let content ← o.intentContent
  let analysis ←
    match jsonParse (effectiveIntentText content) with
    | none => Except.error "SyntaxError: Unexpected token in JSON"
    | some j => Except.ok j
  let needsVal ← jsProp analysis "needsTelemetry"
  if jsTruthy needsVal then do
    let _ ← o.telemetryResult
    let c2 ← o.telemetryContent
    pure (contentOrDefault c2 NO_DATA_FALLBACK)
  else do
    let c3 ← o.plainContent
    pure (contentOrDefault c3 PLAIN_FALLBACK)

/-- `generateAIResponse`: the try body with its catch-all returning the fixed
apology. -/
def generateAIResponse (o : LegacyOracle) : String :=
  match generateAIResponseCore o with
  | .ok s => s
  | .error _ => APOLOGY

/-- A model advertised by a provider. -/
structure ModelInfo where
  id : String
  name : String
  deriving DecidableEq

/-- A provider `chat()` result. -/
structure ChatResponse where
  content : String
  model : String
  provider : String
  deriving DecidableEq

/-- An ephemeral chat message built for a provider call. -/
structure ChatMessage where
  role : String
  content : String
  deriving DecidableEq

/-- The system prompt of the chat controller. -/
def SYSTEM_PROMPT : String :=
  "You are an AI assistant for a smart home energy monitoring system. \n" ++
  "You help users understand their energy consumption patterns and provide insights.\n" ++
  "When users ask about energy usage, you should request specific details like device type and time period.\n" ++
  "Be concise, helpful, and focus on energy-related queries.\n\n" ++
  "Available metrics: power_consumption, voltage, current\n" ++
  "Available device types: AC, refrigerator, lights, etc.\n" ++
  "For time ranges, use ISO 8601 format (YYYY-MM-DDTHH:mm:ss.sssZ)"

/-- The `ChatMessage[]` array constructed per call for the provider:
system prompt, mapped history, current user message. -/
def mkChatHistory (history : List ChatMessage) (message : String) :
    List ChatMessage :=
  ⟨"system", SYSTEM_PROMPT⟩ :: history ++ [⟨"user", message⟩]

/-- Outcomes of the provider calls made by one
`generateAIResponseWithProvider` run. -/
structure ProviderChatOracle where
  modelsResult : Except String (List ModelInfo)
  chatResult : Except String ChatResponse

/-- The try body of `generateAIResponseWithProvider`: resolve the provider
(`requestedProvider || 'openai'`), throw if it is not active, pick a model
(`requestedModel || availableModels[0]?.id || 'gpt-3.5-turbo'`), build the
per-call message array and run the chat call. -/
def generateAIResponseWithProviderCore (providers : List String)
    (o : ProviderChatOracle) (message : String) (history : List ChatMessage)
    (requestedModel requestedProvider : Option String) :
    Except String String := do
  let providerName :=
    match requestedProvider with
    | some p => if p = "" then "openai" else p
    | none => "openai"
  if providerName ∈ providers then do
    let models ← o.modelsResult
    let headId :=
      match models.head? with
      | some mi => if mi.id = "" then "gpt-3.5-turbo" else mi.id
      | none => "gpt-3.5-turbo"
    let _modelToUse :=
      match requestedModel with
      | some m => if m = "" then headId else m
      | none => headId
    let _chatHistory := mkChatHistory history message
    let resp ← o.chatResult
    pure resp.content
  else Except.error "Selected AI provider is not available"

/-- `generateAIResponseWithProvider`: catch-all returning the apology. -/
def generateAIResponseWithProvider (providers : List String)
    (o : ProviderChatOracle) (message : String) (history : List ChatMessage)
    (requestedModel requestedProvider : Option String) : String :=
  match generateAIResponseWithProviderCore providers o message history
      requestedModel requestedProvider with
  | .ok s => s
  | .error _ => APOLOGY

/-- A row of the `chat_messages` table (the message store). -/
structure StoredMessage where
  user_id : String
  session_id : String
  role : String
  content : String
  deriving DecidableEq

/-- `saveMessage`: one insert into `chat_messages`. -/
def saveMessage (store : List StoredMessage)
    (sessionId role content userId : String) : List StoredMessage :=
  store ++ [⟨userId, sessionId, role, content⟩]

/-- `getConversationHistory`: the session's rows in `created_at` order (the
store list is kept in insertion order). -/
def getConversationHistory (store : List StoredMessage) (sessionId : String) :
    List ChatMessage :=
  (store.filter fun m => m.session_id == sessionId).map fun m =>
    ⟨m.role, m.content⟩

/-- The body of a `POST /chat/message` request plus the authenticated user. -/
structure ChatTurnRequest where
  message : String
  sessionId : Option String := none
  model : Option String := none
  provider : Option String := none
  userId : String
  deriving DecidableEq

/-- The `processMessage` controller as a message-store transformer.
`freshId` is the `uuidv4()` drawn for a sessionless turn; `dbHealthy = false`
models a throwing store, routed by the catch to `next(error)` and hence to
the error middleware's 5xx. -/
def processMessage (store : List StoredMessage) (req : ChatTurnRequest)
    (freshId : String) (providers : List String) (o : ProviderChatOracle)
    (dbHealthy : Bool) : List StoredMessage × HttpResponse :=
  let sessionTruthy : Bool :=
    match req.sessionId with
    | some s => s != ""
    | none => false
  let session :=
    match req.sessionId with
    | some s => if s = "" then freshId else s
    | none => freshId
  if dbHealthy then
    let store1 := saveMessage store session "user" req.message req.userId
    let history := getConversationHistory store1 session
    let aiResponse := generateAIResponseWithProvider providers o req.message
      history req.model req.provider
    let store2 := saveMessage store1 session "assistant" aiResponse req.userId
    if sessionTruthy then (store2, ⟨200, .chat aiResponse none⟩)
    else (store2, ⟨200, .chat aiResponse (some session)⟩)
  else (store, ⟨500, .serverError "Internal Server Error"⟩)

/-! ## Provider status polling

Embedding of `ProviderFactory.getAllProviderStatuses` in its parallel
variant: each active provider's `getStatus()` races a fresh 10-second timer;
`Promise.all` collects one result per provider.  A provider's `getStatus()`
behaviour is modelled as a discrete event: it fulfills at time `t`, rejects
at time `t`, or never settles.  A race settles at `min t 10000`; at a tie the
timer (scheduled first) is taken to win, matching the "does not settle before
its timeout" reading. -/

def STATUS_TIMEOUT_MS : Nat := 10000

/-- The `ProviderStatus` record (status as the literal string union;
`lastChecked` as the time the record was produced). -/
structure ProviderStatus where
  name : String
  status : String
  models : List ModelInfo
  lastChecked : Nat
  error : Option String
  deriving DecidableEq

/-- Discrete-event behaviour of one provider's `getStatus()` call. -/
inductive StatusBehavior where
  | fulfilled (t : Nat) (s : ProviderStatus)
  | rejected (t : Nat) (msg : String)
  | pending
  deriving DecidableEq

/-- An active provider under status polling. -/
structure ProviderSim where
  name : String
  behavior : StatusBehavior
  deriving DecidableEq

/-- Outcome of one per-provider race: the recorded status, the time the race
settled, and whether the `clearTimeout` line was reached (it only runs when
the `await Promise.race` returns normally, i.e. when `getStatus()` fulfilled
first). -/
structure RaceResult where
  status : ProviderStatus
  settledAt : Nat
  timerCleared : Bool
  deriving DecidableEq

/-- The catch branch's unhealthy record for provider `p`. -/
def unhealthyRecord (p : ProviderSim) (msg : String) (t : Nat) : ProviderStatus :=
  ⟨p.name, "unhealthy", [], t, some msg⟩

/-- One provider's race against its own 10-second timer. -/
def raceStatus (p : ProviderSim) : RaceResult :=
  match p.behavior with
  | .fulfilled t s =>
    if t < STATUS_TIMEOUT_MS then ⟨s, t, true⟩
    else ⟨unhealthyRecord p "Status check timeout" STATUS_TIMEOUT_MS,
      STATUS_TIMEOUT_MS, false⟩
  | .rejected t m =>
    if t < STATUS_TIMEOUT_MS then ⟨unhealthyRecord p m t, t, false⟩
    else ⟨unhealthyRecord p "Status check timeout" STATUS_TIMEOUT_MS,
      STATUS_TIMEOUT_MS, false⟩
  | .pending =>
    ⟨unhealthyRecord p "Status check timeout" STATUS_TIMEOUT_MS,
      STATUS_TIMEOUT_MS, false⟩

/-- `getAllProviderStatuses`: `Promise.all` over the per-provider races, in
provider order. -/
def getAllProviderStatuses (ps : List ProviderSim) : List ProviderStatus :=
  ps.map fun p => (raceStatus p).status

/-- The time at which the `Promise.all` settles: all races run concurrently
from time zero, so it is the latest individual settle time. -/
def statusesCompletionTime (ps : List ProviderSim) : Nat :=
  (ps.map fun p => (raceStatus p).settledAt).foldr max 0

/-! ## Lemmas about the translator -/

theorem mapMetrics_deviceType (p : TranslatedParams) (m : Option (List String)) :
    (mapMetrics p m).deviceType = p.deviceType := by
  cases m <;> rfl

theorem mapMetrics_deviceName (p : TranslatedParams) (m : Option (List String)) :
    (mapMetrics p m).deviceName = p.deviceName := by
  cases m <;> rfl

theorem mapMetrics_aggregation (p : TranslatedParams) (m : Option (List String)) :
    (mapMetrics p m).aggregation = p.aggregation := by
  cases m <;> rfl

theorem mapTimeRange_deviceType (p : TranslatedParams)
    (tr : Option (String × String)) (agg : Option String) :
    (mapTimeRange p tr agg).deviceType = p.deviceType := by
  cases tr with
  | none => rfl
  | some se =>
    obtain ⟨s, e⟩ := se
    cases agg with
    | none => rfl
    | some a => by_cases ha : a = "" <;> simp [mapTimeRange, ha]

theorem mapTimeRange_deviceName (p : TranslatedParams)
    (tr : Option (String × String)) (agg : Option String) :
    (mapTimeRange p tr agg).deviceName = p.deviceName := by
  cases tr with
  | none => rfl
  | some se =>
    obtain ⟨s, e⟩ := se
    cases agg with
    | none => rfl
    | some a => by_cases ha : a = "" <;> simp [mapTimeRange, ha]

theorem aggregation_of_mapTimeRange (p : TranslatedParams) (s e : String)
    (agg : Option String) :
    (mapTimeRange p (some (s, e)) agg).aggregation =
      some (match agg with
        | some a => if a ≠ "" then a else determineAggregation s e
        | none => determineAggregation s e) := by
  cases agg with
  | none => rfl
  | some a => by_cases ha : a = "" <;> simp [mapTimeRange, ha]

/-- The aggregation chosen by `convertIntentToQueryParams` when a time range
is present: the truthy explicit value, else `determineAggregation`. -/
theorem aggregation_of_convert (intent : Intent) (s e : String)
    (h : intent.timeRange = some (s, e)) :
    (convertIntentToQueryParams intent).aggregation =
      some (match intent.aggregation with
        | some a => if a ≠ "" then a else determineAggregation s e
        | none => determineAggregation s e) := by
  show (mapMetrics (mapTimeRange (mapDeviceInfo intent.device) intent.timeRange
      intent.aggregation) intent.metrics).aggregation = _
  rw [mapMetrics_aggregation, h, aggregation_of_mapTimeRange]

/-- Unfolding of `determineAggregation` on parseable dates. -/
theorem determineAggregation_eq (s e : String) (a b : Int)
    (hs : jsDateMs s = some a) (he : jsDateMs e = some b) :
    determineAggregation s e =
      (if ceilDivInt (b - a) 86400000 ≤ 2 then "hourly"
       else if ceilDivInt (b - a) 86400000 ≤ 14 then "daily"
       else if ceilDivInt (b - a) 86400000 ≤ 90 then "weekly"
       else "monthly") := by
  unfold determineAggregation
  rw [hs, he]

/-- C2: for every intent that carries a time range but no (truthy) explicit
aggregation, the bucket is picked from the ceiling `d` of the day-span:
`d ≤ 2` hourly, `2 < d ≤ 14` daily, `14 < d ≤ 90` weekly, `d > 90` monthly;
an explicit aggregation value is used unchanged, overriding the computed
rule. -/
theorem C2_aggregation_selection (intent : Intent) (s e : String) (a b : Int)
    (htr : intent.timeRange = some (s, e))
    (hs : jsDateMs s = some a) (he : jsDateMs e = some b) :
    (∀ v, intent.aggregation = some v → v ≠ "" →
      (convertIntentToQueryParams intent).aggregation = some v) ∧
    ((intent.aggregation = none ∨ intent.aggregation = some "") →
      (ceilDivInt (b - a) 86400000 ≤ 2 →
        (convertIntentToQueryParams intent).aggregation = some "hourly") ∧
      (2 < ceilDivInt (b - a) 86400000 ∧ ceilDivInt (b - a) 86400000 ≤ 14 →
        (convertIntentToQueryParams intent).aggregation = some "daily") ∧
      (14 < ceilDivInt (b - a) 86400000 ∧ ceilDivInt (b - a) 86400000 ≤ 90 →
        (convertIntentToQueryParams intent).aggregation = some "weekly") ∧
      (90 < ceilDivInt (b - a) 86400000 →
        (convertIntentToQueryParams intent).aggregation = some "monthly")) := by
  have hagg := aggregation_of_convert intent s e htr
  have hdet := determineAggregation_eq s e a b hs he
  constructor
  · intro v hv hne
    rw [hagg, hv]
    simp [hne]
  · intro hnone
    have hconv : (convertIntentToQueryParams intent).aggregation =
        some (determineAggregation s e) := by
      rcases hnone with h | h <;> (rw [hagg, h]; try simp)
    refine ⟨fun h1 => ?_, fun h2 => ?_, fun h3 => ?_, fun h4 => ?_⟩
    · rw [hconv, hdet]; simp [h1]
    · rw [hconv, hdet]; simp [h2.2, not_le.mpr h2.1]
    · rw [hconv, hdet]; simp [h3.2, not_le.mpr h3.1, not_le.mpr (by omega : (2 : Int) < ceilDivInt (b - a) 86400000)]
    · rw [hconv, hdet]
      simp [not_le.mpr h4, not_le.mpr (by omega : (2 : Int) < ceilDivInt (b - a) 86400000),
        not_le.mpr (by omega : (14 : Int) < ceilDivInt (b - a) 86400000)]

/-- Witness for C2 at a concrete intent: a seven-day range with no explicit
aggregation translates to daily; with an explicit `hourly` it stays hourly. -/
theorem C2_aggregation_selection_witness :
    ({ timeRange := some ("2024-06-08T00:00:00Z", "2024-06-15T00:00:00Z") }
        : Intent).timeRange = some ("2024-06-08T00:00:00Z", "2024-06-15T00:00:00Z") ∧
    (convertIntentToQueryParams
      { timeRange := some ("2024-06-08T00:00:00Z", "2024-06-15T00:00:00Z") }).aggregation
      = some "daily" := by
  have h := C2_aggregation_selection
    { timeRange := some ("2024-06-08T00:00:00Z", "2024-06-15T00:00:00Z") }
    "2024-06-08T00:00:00Z" "2024-06-15T00:00:00Z" 1717804800000 1718409600000
    (by decide) (by decide) (by decide)
  refine ⟨by decide, ?_⟩
  have := (h.2 (Or.inl (by decide))).2.1
  exact this (by decide)

/-- The device fields assembled by the `// Map device info` block. -/
theorem mapDeviceInfo_eq (d : String) :
    ((mapDeviceInfo (some d)).deviceType, (mapDeviceInfo (some d)).deviceName) =
      (if d ≠ "" ∧ asciiLower d ≠ "all" then
        match deviceMappings.lookup (asciiLower d) with
        | some t => (some t, none)
        | none =>
          if asciiLower d ∈ fullDeviceTypes then (some (asciiLower d), none)
          else (none, some d)
      else (none, none)) := by
  by_cases h1 : d ≠ "" ∧ asciiLower d ≠ "all"
  · cases hl : deviceMappings.lookup (asciiLower d) with
    | some t => simp [mapDeviceInfo, h1, hl]
    | none =>
      by_cases h2 : asciiLower d ∈ fullDeviceTypes
      · simp [mapDeviceInfo, h1, hl, h2]
      · by_cases h3 : containsSub d " " <;> simp [mapDeviceInfo, h1, hl, h2, h3]
  · simp [mapDeviceInfo, h1]

/-- The device fields of `convertIntentToQueryParams` depend only on the
intent's `device` field. -/
theorem device_fields_of_convert (intent : Intent) (d : String)
    (h : intent.device = some d) :
    ((convertIntentToQueryParams intent).deviceType,
     (convertIntentToQueryParams intent).deviceName) =
      (if d ≠ "" ∧ asciiLower d ≠ "all" then
        match deviceMappings.lookup (asciiLower d) with
        | some t => (some t, none)
        | none =>
          if asciiLower d ∈ fullDeviceTypes then (some (asciiLower d), none)
          else (none, some d)
      else (none, none)) := by
  have ht : (convertIntentToQueryParams intent).deviceType
      = (mapDeviceInfo intent.device).deviceType := by
    show (mapMetrics (mapTimeRange (mapDeviceInfo intent.device) intent.timeRange
        intent.aggregation) intent.metrics).deviceType = _
    rw [mapMetrics_deviceType, mapTimeRange_deviceType]
  have hn : (convertIntentToQueryParams intent).deviceName
      = (mapDeviceInfo intent.device).deviceName := by
    show (mapMetrics (mapTimeRange (mapDeviceInfo intent.device) intent.timeRange
        intent.aggregation) intent.metrics).deviceName = _
    rw [mapMetrics_deviceName, mapTimeRange_deviceName]
  rw [ht, hn, h, mapDeviceInfo_eq]

/-- C6 counterexample: the input `"LIGHTS"` is not the literal `'all'`, has
no case-insensitive hit in the abbreviation table, and is not an exact
(string-equal) match of any canonical device type, so the claim's catch-all
predicts `deviceName = "LIGHTS"`; the code instead lowercases before the
canonical-type comparison and yields `deviceType = "lights"`. -/
theorem C6_counterexample :
    ("LIGHTS" ≠ "" ∧ asciiLower "LIGHTS" ≠ "all" ∧
      deviceMappings.lookup (asciiLower "LIGHTS") = none ∧
      "LIGHTS" ∉ fullDeviceTypes) ∧
    (convertIntentToQueryParams { device := some "LIGHTS" }).deviceType
        = some "lights" ∧
    (convertIntentToQueryParams { device := some "LIGHTS" }).deviceName
        = none := by
  exact ⟨by decide, by decide, by decide⟩

/-- C6 (amended): device resolution follows the strict precedence — literal
case-insensitive `'all'` gives no device filter; a case-insensitive hit in
the fixed abbreviation table gives `deviceType`; a case-insensitive exact
match of a canonical device type gives the lowercased `deviceType`; any
other input is forwarded verbatim as `deviceName`; in particular `"AC"` and
`"air_conditioner"` both give `deviceType = "air_conditioner"` and
`"toaster"` gives `deviceName = "toaster"`. -/
theorem C6_device_resolution (intent : Intent) (d : String)
    (h : intent.device = some d) (hne : d ≠ "") :
    (asciiLower d = "all" →
      (convertIntentToQueryParams intent).deviceType = none ∧
      (convertIntentToQueryParams intent).deviceName = none) ∧
    (∀ t, deviceMappings.lookup (asciiLower d) = some t →
      (convertIntentToQueryParams intent).deviceType = some t ∧
      (convertIntentToQueryParams intent).deviceName = none) ∧
    (asciiLower d ≠ "all" → deviceMappings.lookup (asciiLower d) = none →
      asciiLower d ∈ fullDeviceTypes →
      (convertIntentToQueryParams intent).deviceType = some (asciiLower d) ∧
      (convertIntentToQueryParams intent).deviceName = none) ∧
    (asciiLower d ≠ "all" → deviceMappings.lookup (asciiLower d) = none →
      asciiLower d ∉ fullDeviceTypes →
      (convertIntentToQueryParams intent).deviceType = none ∧
      (convertIntentToQueryParams intent).deviceName = some d) ∧
    (convertIntentToQueryParams { device := some "AC" }).deviceType
        = some "air_conditioner" ∧
    (convertIntentToQueryParams { device := some "air_conditioner" }).deviceType
        = some "air_conditioner" ∧
    (convertIntentToQueryParams { device := some "toaster" }).deviceName
        = some "toaster" := by
  have hd := device_fields_of_convert intent d h
  refine ⟨fun hall => ?_, fun t hlook => ?_,
    fun hall hlook hmem => ?_, fun hall hlook hmem => ?_,
    by decide, by decide, by decide⟩
  · rw [show ((convertIntentToQueryParams intent).deviceType = none ∧
        (convertIntentToQueryParams intent).deviceName = none) ↔
        ((convertIntentToQueryParams intent).deviceType,
         (convertIntentToQueryParams intent).deviceName) = (none, none) by
      constructor
      · rintro ⟨h1, h2⟩; rw [h1, h2]
      · intro hh; exact ⟨congrArg Prod.fst hh, congrArg Prod.snd hh⟩]
    rw [hd]
    simp [hall]
  · have hall : asciiLower d ≠ "all" := by
      intro hc
      rw [hc, show deviceMappings.lookup "all" = none from by decide] at hlook
      exact Option.noConfusion hlook
    have : ((convertIntentToQueryParams intent).deviceType,
        (convertIntentToQueryParams intent).deviceName) = (some t, none) := by
      rw [hd]; simp [hne, hall, hlook]
    exact ⟨congrArg Prod.fst this, congrArg Prod.snd this⟩
  · have : ((convertIntentToQueryParams intent).deviceType,
        (convertIntentToQueryParams intent).deviceName) =
        (some (asciiLower d), none) := by
      rw [hd]; simp [hne, hall, hlook, hmem]
    exact ⟨congrArg Prod.fst this, congrArg Prod.snd this⟩
  · have : ((convertIntentToQueryParams intent).deviceType,
        (convertIntentToQueryParams intent).deviceName) = (none, some d) := by
      rw [hd]; simp [hne, hall, hlook, hmem]
    exact ⟨congrArg Prod.fst this, congrArg Prod.snd this⟩

/-- Witness for C6 at the concrete input `"Fridge"`: a case-insensitive
abbreviation-table hit resolving to `deviceType = "refrigerator"`. -/
theorem C6_device_resolution_witness :
    ({ device := some "Fridge" } : Intent).device = some "Fridge" ∧
    (convertIntentToQueryParams { device := some "Fridge" }).deviceType
        = some "refrigerator" := by
  refine ⟨by decide, ?_⟩
  exact ((C6_device_resolution { device := some "Fridge" } "Fridge"
    (by decide) (by decide)).2.1 "refrigerator" (by decide)).1

/-- The metrics field of `convertIntentToQueryParams` when an intent carries
a metrics array. -/
theorem metrics_of_convert (intent : Intent) (ms : List String)
    (h : intent.metrics = some ms) :
    (convertIntentToQueryParams intent).metrics =
      some ((ms.map fun m => (METRIC_MAPPING.lookup m).getD m).filter
        fun m => m ∈ canonicalMetrics) := by
  show (mapMetrics (mapTimeRange (mapDeviceInfo intent.device) intent.timeRange
      intent.aggregation) intent.metrics).metrics = _
  rw [h]
  rfl

/-- Per-token behaviour of the metric aliasing stage, as amended: the four
aliases map to `power_consumption`; `power_consumption`, `voltage` and
`current` are left fixed; everything else is dropped. -/
def metricStepAmended (m : String) : Option String :=
  if m = "energyConsumption" ∨ m = "powerConsumption" ∨ m = "energy" ∨ m = "power"
  then some "power_consumption"
  else if m = "power_consumption" ∨ m = "voltage" ∨ m = "current" then some m
  else none

/-- The code's map-then-filter agrees with `metricStepAmended` on every
token. -/
theorem metric_step_agrees (m : String) :
    (if ((METRIC_MAPPING.lookup m).getD m) ∈ canonicalMetrics
     then some ((METRIC_MAPPING.lookup m).getD m) else none) = metricStepAmended m := by
  by_cases hec : m = "energyConsumption"
  · subst hec; decide
  by_cases hpc : m = "powerConsumption"
  · subst hpc; decide
  by_cases hen : m = "energy"
  · subst hen; decide
  by_cases hpw : m = "power"
  · subst hpw; decide
  by_cases hvo : m = "voltage"
  · subst hvo; decide
  by_cases hcu : m = "current"
  · subst hcu; decide
  by_cases hcn : m = "power_consumption"
  · subst hcn; decide
  have hl : METRIC_MAPPING.lookup m = none := by
    simp [METRIC_MAPPING, List.lookup, beq_eq_false_iff_ne.mpr hec,
      beq_eq_false_iff_ne.mpr hpc, beq_eq_false_iff_ne.mpr hen,
      beq_eq_false_iff_ne.mpr hpw, beq_eq_false_iff_ne.mpr hvo,
      beq_eq_false_iff_ne.mpr hcu]
  simp [hl, canonicalMetrics, metricStepAmended, hec, hpc, hen, hpw, hvo,
    hcu, hcn]

/-- The whole translated metrics list agrees with the amended per-token
rule. -/
theorem translate_metrics_eq (toks : List String) :
    ((toks.map fun m => (METRIC_MAPPING.lookup m).getD m).filter
        fun m => m ∈ canonicalMetrics)
      = toks.filterMap metricStepAmended := by
  induction toks with
  | nil => rfl
  | cons m tl ih =>
    have hstep := metric_step_agrees m
    by_cases hm : ((METRIC_MAPPING.lookup m).getD m) ∈ canonicalMetrics
    · rw [if_pos hm] at hstep
      simp only [List.map_cons, List.filter_cons, List.filterMap_cons, ← hstep,
        decide_eq_true_eq]
      rw [if_pos hm, ih]
    · rw [if_neg hm] at hstep
      simp only [List.map_cons, List.filter_cons, List.filterMap_cons, ← hstep,
        decide_eq_true_eq]
      rw [if_neg hm, ih]

/-- C7 counterexample: the canonical token `"power_consumption"` is none of
the six tokens the claim enumerates, so "silently drops every other metric
token" predicts it is dropped; the translator forwards it unchanged. -/
theorem C7_counterexample :
    ("power_consumption" ∉
      ["energyConsumption", "powerConsumption", "energy", "power",
       "voltage", "current"]) ∧
    (convertIntentToQueryParams { metrics := some ["power_consumption"] }).metrics
      = some ["power_consumption"] := by
  exact ⟨by decide, by decide⟩

/-- C7 (amended): the translator maps each of `energyConsumption`,
`powerConsumption`, `energy`, `power` to exactly `power_consumption`, leaves
`power_consumption`, `voltage` and `current` fixed, and silently drops every
other metric token; hence every translated metrics list is a subset of the
canonical set and no unrecognized token reaches the query layer. -/
theorem C7_metric_aliasing (intent : Intent) (ms : List String)
    (h : intent.metrics = some ms) :
    (convertIntentToQueryParams intent).metrics
        = some (ms.filterMap metricStepAmended) ∧
    (∀ m ∈ ms.filterMap metricStepAmended, m ∈ canonicalMetrics) ∧
    (∀ m ∈ ["energyConsumption", "powerConsumption", "energy", "power"],
      metricStepAmended m = some "power_consumption") ∧
    metricStepAmended "power_consumption" = some "power_consumption" ∧
    metricStepAmended "voltage" = some "voltage" ∧
    metricStepAmended "current" = some "current" ∧
    (∀ m, m ∉ canonicalMetrics →
      m ∉ ["energyConsumption", "powerConsumption", "energy", "power"] →
      metricStepAmended m = none) := by
  have inst1 : ∀ m ∈ ["energyConsumption", "powerConsumption", "energy", "power"],
      metricStepAmended m = some "power_consumption" := by decide
  refine ⟨?_, ?_, inst1, by decide, by decide, by decide, ?_⟩
  · rw [metrics_of_convert intent ms h, translate_metrics_eq]
  · intro m hmem
    rcases List.mem_filterMap.mp hmem with ⟨a, _, hstep⟩
    unfold metricStepAmended at hstep
    split at hstep
    · simp only [Option.some_inj] at hstep
      rw [← hstep]; decide
    · split at hstep
      · rename_i hcase
        simp only [Option.some_inj] at hstep
        subst hstep
        rcases hcase with h | h | h <;> (subst h; decide)
      · exact Option.noConfusion hstep
  · intro m hcan hali
    have h1 : ¬(m = "energyConsumption" ∨ m = "powerConsumption" ∨
        m = "energy" ∨ m = "power") := by
      simpa using hali
    have h2 : ¬(m = "power_consumption" ∨ m = "voltage" ∨ m = "current") := by
      simpa [canonicalMetrics] using hcan
    simp [metricStepAmended, h1, h2]

/-- Witness for C7 at a concrete metrics list: the alias `power` collapses
to `power_consumption` and the unknown token `banana` is dropped. -/
theorem C7_metric_aliasing_witness :
    ({ metrics := some ["power", "banana", "voltage"] } : Intent).metrics
        = some ["power", "banana", "voltage"] ∧
    (convertIntentToQueryParams
        { metrics := some ["power", "banana", "voltage"] }).metrics
      = some ["power_consumption", "voltage"] := by
  refine ⟨by decide, ?_⟩
  have h := C7_metric_aliasing { metrics := some ["power", "banana", "voltage"] }
    ["power", "banana", "voltage"] (by decide)
  rw [h.1]
  decide

/-! ## Provider status polling (C5) -/

/-- C5 counterexample: a provider whose `getStatus()` settles first — by
rejecting at 5 seconds, well before the 10-second timeout — does not get its
timer cancelled: the `clearTimeout` line is only reached when the race
resolves normally, and a rejection jumps straight to the catch branch. -/
theorem C5_counterexample :
    5000 < STATUS_TIMEOUT_MS ∧
    (raceStatus ⟨"ollama", .rejected 5000 "connection refused"⟩).timerCleared
      = false ∧
    (raceStatus ⟨"ollama", .rejected 5000 "connection refused"⟩).settledAt
      = 5000 := by
  exact ⟨by decide, by decide, by decide⟩

/-- Every per-provider race settles no later than the 10-second timeout. -/
theorem raceStatus_settledAt_le (p : ProviderSim) :
    (raceStatus p).settledAt ≤ STATUS_TIMEOUT_MS := by
  unfold raceStatus
  cases p.behavior with
  | fulfilled t s =>
    by_cases h : t < STATUS_TIMEOUT_MS
    · simp only [if_pos h]
      exact le_of_lt h
    · simp [h]
  | rejected t m =>
    by_cases h : t < STATUS_TIMEOUT_MS
    · simp only [if_pos h]
      exact le_of_lt h
    · simp [h]
  | pending => simp

/-- The `Promise.all` settles within the single per-provider timeout. -/
theorem statusesCompletionTime_le (ps : List ProviderSim) :
    statusesCompletionTime ps ≤ STATUS_TIMEOUT_MS := by
  unfold statusesCompletionTime
  induction ps with
  | nil => simp
  | cons q rest ih =>
    simp only [List.map_cons, List.foldr_cons]
    exact max_le (raceStatus_settledAt_le q) ih

/-- C5 (amended): `getAllProviderStatuses` races every active provider
concurrently against an independent 10-second timer and returns exactly one
status per provider, in order, once all races settle (total latency the
slowest race, bounded by the single timeout).  A provider that does not
settle before the timeout is recorded `unhealthy` with an error mentioning
timeout; a provider that fulfills before the timeout is reported exactly as
returned, with its timer cancelled; a provider that rejects before the
timeout is recorded `unhealthy` with the original message, but its timer is
not cancelled (cancellation happens only on fulfilment).  Every other
provider's entry is unaffected. -/
theorem C5_status_polling (ps : List ProviderSim) (p : ProviderSim)
    (hp : p ∈ ps) :
    (getAllProviderStatuses ps).length = ps.length ∧
    statusesCompletionTime ps ≤ STATUS_TIMEOUT_MS ∧
    (raceStatus p).status ∈ getAllProviderStatuses ps ∧
    (∀ ps1 ps2 q, getAllProviderStatuses (ps1 ++ q :: ps2) =
      getAllProviderStatuses ps1 ++ (raceStatus q).status ::
        getAllProviderStatuses ps2) ∧
    ((∀ t s, p.behavior = .fulfilled t s → STATUS_TIMEOUT_MS ≤ t) →
     (∀ t m, p.behavior = .rejected t m → STATUS_TIMEOUT_MS ≤ t) →
      (raceStatus p).status =
        unhealthyRecord p "Status check timeout" STATUS_TIMEOUT_MS ∧
      (raceStatus p).status.status = "unhealthy" ∧
      containsSub ((raceStatus p).status.error.getD "") "timeout" = true) ∧
    (∀ t s, p.behavior = .fulfilled t s → t < STATUS_TIMEOUT_MS →
      (raceStatus p).status = s ∧ (raceStatus p).timerCleared = true) ∧
    (∀ t m, p.behavior = .rejected t m → t < STATUS_TIMEOUT_MS →
      (raceStatus p).status = unhealthyRecord p m t ∧
      (raceStatus p).timerCleared = false) := by
  refine ⟨by simp [getAllProviderStatuses], statusesCompletionTime_le ps,
    List.mem_map.mpr ⟨p, hp, rfl⟩,
    fun ps1 ps2 q => by simp [getAllProviderStatuses], ?_, ?_, ?_⟩
  · intro hf hr
    have hst : (raceStatus p).status =
        unhealthyRecord p "Status check timeout" STATUS_TIMEOUT_MS := by
      unfold raceStatus
      cases hb : p.behavior with
      | fulfilled t s =>
        have := hf t s hb
        simp [not_lt.mpr this]
      | rejected t m =>
        have := hr t m hb
        simp [not_lt.mpr this]
      | pending => rfl
    refine ⟨hst, by rw [hst]; rfl, ?_⟩
    rw [hst]
    show containsSub "Status check timeout" "timeout" = true
    decide
  · intro t s hb ht
    unfold raceStatus
    rw [hb]
    simp [ht]
  · intro t m hb ht
    unfold raceStatus
    rw [hb]
    simp [ht]

/-- Witness for C5: one healthy provider fulfilling at 120 ms and one
pending provider; the pending provider is recorded unhealthy with the
timeout message, the healthy one is reported exactly as returned. -/
theorem C5_status_polling_witness :
    ((⟨"ollama", .pending⟩ : ProviderSim) ∈
      ([⟨"openai", .fulfilled 120 ⟨"openai", "healthy", [⟨"gpt-4", "GPT-4"⟩], 120, none⟩⟩,
        ⟨"ollama", .pending⟩] : List ProviderSim)) ∧
    (raceStatus ⟨"ollama", .pending⟩).status =
      ⟨"ollama", "unhealthy", [], 10000, some "Status check timeout"⟩ ∧
    getAllProviderStatuses
      [⟨"openai", .fulfilled 120 ⟨"openai", "healthy", [⟨"gpt-4", "GPT-4"⟩], 120, none⟩⟩,
       ⟨"ollama", .pending⟩] =
      [⟨"openai", "healthy", [⟨"gpt-4", "GPT-4"⟩], 120, none⟩,
       ⟨"ollama", "unhealthy", [], 10000, some "Status check timeout"⟩] := by
  refine ⟨by decide, ?_, by decide⟩
  have h := C5_status_polling
    [⟨"openai", .fulfilled 120 ⟨"openai", "healthy", [⟨"gpt-4", "GPT-4"⟩], 120, none⟩⟩,
     ⟨"ollama", .pending⟩]
    ⟨"ollama", .pending⟩ (by decide)
  have := (h.2.2.2.2.1 (by intro t s hb; simp at hb)
    (by intro t m hb; simp at hb)).1
  rw [this]
  decide

/-! ## The chat turn as a store transformer (C9, C4) -/

/-- C9: ChatMessage values are ephemeral.  A chat turn changes the message
store only through the two `saveMessage` inserts (session persistence, the
out-of-scope collaborator): the user's message and the assistant's reply.
None of the `ChatMessage` values built for the provider call are persisted —
in particular no system-role row is ever written — and the turn answers
200. -/
theorem C9_chat_messages_ephemeral (store : List StoredMessage)
    (req : ChatTurnRequest) (freshId : String) (providers : List String)
    (o : ProviderChatOracle) :
    ∃ session aiResponse,
      (processMessage store req freshId providers o true).1 =
        store ++ [⟨req.userId, session, "user", req.message⟩,
                  ⟨req.userId, session, "assistant", aiResponse⟩] ∧
      (∀ msg ∈ (processMessage store req freshId providers o true).1,
        msg ∈ store ∨ msg.role = "user" ∨ msg.role = "assistant") ∧
      (processMessage store req freshId providers o true).2.status = 200 := by
  have key : (processMessage store req freshId providers o true).1 =
      store ++
        [⟨req.userId,
          (match req.sessionId with
           | some s => if s = "" then freshId else s
           | none => freshId), "user", req.message⟩,
         ⟨req.userId,
          (match req.sessionId with
           | some s => if s = "" then freshId else s
           | none => freshId), "assistant",
          generateAIResponseWithProvider providers o req.message
            (getConversationHistory
              (saveMessage store
                (match req.sessionId with
                 | some s => if s = "" then freshId else s
                 | none => freshId) "user" req.message req.userId)
              (match req.sessionId with
               | some s => if s = "" then freshId else s
               | none => freshId)) req.model req.provider⟩] := by
    by_cases hs : (match req.sessionId with
      | some s => s != ""
      | none => false) = true <;>
      simp [processMessage, hs, saveMessage]
  refine ⟨_, _, key, ?_, ?_⟩
  · intro msg hmsg
    rw [key] at hmsg
    simp only [List.mem_cons, List.mem_append, List.not_mem_nil,
      or_false] at hmsg
    rcases hmsg with h | h | h
    · exact Or.inl h
    · right; left; rw [h]
    · right; right; rw [h]
  · by_cases hs : (match req.sessionId with
      | some s => s != ""
      | none => false) = true <;>
      simp [processMessage, hs]

/-- Witness for C9 at a concrete turn: the store gains exactly the user row
and the assistant row. -/
theorem C9_chat_messages_ephemeral_witness :
    ∃ session aiResponse,
      (processMessage [] ⟨"hello", none, none, none, "u1"⟩ "s1" ["openai"]
        ⟨Except.ok [⟨"gpt-4", "GPT-4"⟩],
         Except.ok ⟨"Hi!", "gpt-4", "openai"⟩⟩ true).1 =
        [] ++ [⟨"u1", session, "user", "hello"⟩,
               ⟨"u1", session, "assistant", aiResponse⟩] ∧
      (∀ msg ∈ (processMessage [] ⟨"hello", none, none, none, "u1"⟩ "s1"
          ["openai"] ⟨Except.ok [⟨"gpt-4", "GPT-4"⟩],
           Except.ok ⟨"Hi!", "gpt-4", "openai"⟩⟩ true).1,
        msg ∈ ([] : List StoredMessage) ∨ msg.role = "user" ∨
          msg.role = "assistant") ∧
      (processMessage [] ⟨"hello", none, none, none, "u1"⟩ "s1" ["openai"]
        ⟨Except.ok [⟨"gpt-4", "GPT-4"⟩],
         Except.ok ⟨"Hi!", "gpt-4", "openai"⟩⟩ true).2.status = 200 :=
  C9_chat_messages_ephemeral [] ⟨"hello", none, none, none, "u1"⟩ "s1"
    ["openai"] ⟨Except.ok [⟨"gpt-4", "GPT-4"⟩],
     Except.ok ⟨"Hi!", "gpt-4", "openai"⟩⟩

/-- A throwing provider `chat()` call makes `generateAIResponseWithProvider`
return the fixed apology, whatever else happened. -/
theorem provider_chat_error_apology (providers : List String)
    (o : ProviderChatOracle) (message : String) (history : List ChatMessage)
    (requestedModel requestedProvider : Option String) (e : String)
    (h : o.chatResult = .error e) :
    generateAIResponseWithProvider providers o message history requestedModel
      requestedProvider = APOLOGY := by
  have hcore : ∃ m, generateAIResponseWithProviderCore providers o message
      history requestedModel requestedProvider = .error m := by
    unfold generateAIResponseWithProviderCore
    by_cases hmem : (match requestedProvider with
      | some p => if p = "" then "openai" else p
      | none => "openai") ∈ providers
    · rcases hmod : o.modelsResult with e' | models
      · exact ⟨e', by simp [hmem, hmod, Bind.bind, Except.bind]⟩
      · exact ⟨e, by simp [hmem, hmod, h, Bind.bind, Except.bind]⟩
    · exact ⟨"Selected AI provider is not available", by simp [hmem]⟩
  obtain ⟨m, hm⟩ := hcore
  unfold generateAIResponseWithProvider
  rw [hm]

/-- C4: when the provider chat call throws, the chat endpoint does not fail
with a 5xx: it responds 200 with the fixed apology string. -/
theorem C4_provider_error_apology (store : List StoredMessage)
    (req : ChatTurnRequest) (freshId : String) (providers : List String)
    (o : ProviderChatOracle) (e : String)
    (hchat : o.chatResult = .error e) :
    (processMessage store req freshId providers o true).2.status = 200 ∧
    ∃ sid, (processMessage store req freshId providers o true).2.body =
      .chat APOLOGY sid := by
  have hap := provider_chat_error_apology providers o req.message
    (getConversationHistory
      (saveMessage store
        (match req.sessionId with
         | some s => if s = "" then freshId else s
         | none => freshId) "user" req.message req.userId)
      (match req.sessionId with
       | some s => if s = "" then freshId else s
       | none => freshId)) req.model req.provider e hchat
  by_cases hs : (match req.sessionId with
    | some s => s != ""
    | none => false) = true
  · refine ⟨by simp [processMessage, hs], none, ?_⟩
    simp [processMessage, hs, hap]
  · refine ⟨by simp [processMessage, hs], some (match req.sessionId with
      | some s => if s = "" then freshId else s
      | none => freshId), ?_⟩
    simp [processMessage, hs, hap]

/-- Witness for C4: a concrete turn whose provider chat call rejects; the
endpoint answers 200 with the apology body. -/
theorem C4_provider_error_apology_witness :
    (⟨Except.ok [], Except.error "boom"⟩ : ProviderChatOracle).chatResult
        = Except.error "boom" ∧
    (processMessage [] ⟨"hi", none, none, none, "u1"⟩ "s1" ["openai"]
      ⟨Except.ok [], Except.error "boom"⟩ true).2.status = 200 := by
  exact ⟨rfl, (C4_provider_error_apology [] ⟨"hi", none, none, none, "u1"⟩
    "s1" ["openai"] ⟨Except.ok [], Except.error "boom"⟩ "boom" rfl).1⟩

/-! ## Intent-extraction failure handling (C3) -/

/-- The default intent text parses to the explicit needsTelemetry:false
object. -/
theorem jsonParse_default_intent :
    jsonParse DEFAULT_INTENT_JSON =
      some (.obj [("needsTelemetry", .bool false)]) := rfl

/-- C3 counterexample: with non-empty invalid JSON (`"oops"`) as the
intent-extraction output, `JSON.parse` throws, the catch returns the fixed
apology — not the plain-chat completion that an explicit
`needsTelemetry:false` output produces on the same oracle. -/
theorem C3_counterexample :
    jsonParse "oops" = none ∧
    generateAIResponse
        ⟨.ok (some "oops"), .ok "", .ok none, .ok (some "Hello there.")⟩
      = APOLOGY ∧
    generateAIResponse
        ⟨.ok (some DEFAULT_INTENT_JSON), .ok "", .ok none,
         .ok (some "Hello there.")⟩
      = "Hello there." ∧
    generateAIResponse
        ⟨.ok (some "oops"), .ok "", .ok none, .ok (some "Hello there.")⟩
      ≠ generateAIResponse
        ⟨.ok (some DEFAULT_INTENT_JSON), .ok "", .ok none,
         .ok (some "Hello there.")⟩ := by
  refine ⟨rfl, rfl, rfl, ?_⟩
  intro h
  exact absurd h (by decide)

/-- C3 (amended): for an intent-extraction completion that returns content
`c`: a missing or empty content, or valid non-null JSON whose
`needsTelemetry` is absent or falsy, makes the pipeline behave exactly as if
the model had returned the explicit `needsTelemetry:false` object (plain
chat, no telemetry fetch); non-empty content that is not valid JSON makes
`JSON.parse` throw, which the surrounding catch converts to the fixed
apology — the pipeline never throws, but it does not take the plain-chat
path. -/
theorem C3_intent_parse_failure (o : LegacyOracle) (c : Option String)
    (hc : o.intentContent = .ok c) :
    ((c = none ∨ c = some "") →
      generateAIResponse o =
        generateAIResponse { o with intentContent := .ok (some DEFAULT_INTENT_JSON) }) ∧
    (∀ s j v, c = some s → s ≠ "" → jsonParse s = some j →
      jsProp j "needsTelemetry" = .ok v → jsTruthy v = false →
      generateAIResponse o =
        generateAIResponse { o with intentContent := .ok (some DEFAULT_INTENT_JSON) }) ∧
    (∀ s, c = some s → s ≠ "" → jsonParse s = none →
      generateAIResponse o = APOLOGY) := by
  refine ⟨fun hce => ?_, fun s j v hcs hsne hparse hprop htruthy => ?_,
    fun s hcs hsne hparse => ?_⟩
  · unfold generateAIResponse generateAIResponseCore
    have he : effectiveIntentText c = DEFAULT_INTENT_JSON := by
      rcases hce with h | h <;> simp [h, effectiveIntentText]
    have he2 : effectiveIntentText (some DEFAULT_INTENT_JSON) =
        DEFAULT_INTENT_JSON := by
      simp [effectiveIntentText, DEFAULT_INTENT_JSON]
    simp [hc, he, he2, Bind.bind, Except.bind]
  · unfold generateAIResponse generateAIResponseCore
    have he : effectiveIntentText c = s := by
      simp [hcs, effectiveIntentText, hsne]
    have he2 : effectiveIntentText (some DEFAULT_INTENT_JSON) =
        DEFAULT_INTENT_JSON := by
      simp [effectiveIntentText, DEFAULT_INTENT_JSON]
    have hpropd : jsProp (.obj [("needsTelemetry", .bool false)])
        "needsTelemetry" = .ok (some (.bool false)) := rfl
    have htruthyd : jsTruthy (some (.bool false)) = false := rfl
    simp [hc, he, he2, hparse, hprop, htruthy, jsonParse_default_intent,
      hpropd, htruthyd, Bind.bind, Except.bind]
  · unfold generateAIResponse generateAIResponseCore
    have he : effectiveIntentText c = s := by
      simp [hcs, effectiveIntentText, hsne]
    simp [hc, he, hparse, Bind.bind, Except.bind]

/-- Witness for C3: a valid JSON object that omits `needsTelemetry` takes
exactly the plain-chat path of the explicit `needsTelemetry:false` run. -/
theorem C3_intent_parse_failure_witness :
    (⟨.ok (some "\x7b\x7d"), .ok "", .ok none, .ok (some "Hi.")⟩
        : LegacyOracle).intentContent = .ok (some "\x7b\x7d") ∧
    generateAIResponse
        ⟨.ok (some "\x7b\x7d"), .ok "", .ok none, .ok (some "Hi.")⟩ =
      generateAIResponse
        ⟨.ok (some DEFAULT_INTENT_JSON), .ok "", .ok none, .ok (some "Hi.")⟩ := by
  refine ⟨rfl, ?_⟩
  exact (C3_intent_parse_failure
      ⟨.ok (some "\x7b\x7d"), .ok "", .ok none, .ok (some "Hi.")⟩
      (some "\x7b\x7d") rfl).2.1 "\x7b\x7d" (.obj []) none rfl
    (by decide) rfl rfl rfl

/-! ## Error categorization of the aggregation endpoint (C8) -/

/-- A well-formed aggregation request used by several concrete instances. -/
def sampleRawQuery : RawQuery :=
  { metrics := some ["power_consumption"],
    startDate := some "2024-06-01T00:00:00Z",
    endDate := some "2024-06-08T00:00:00Z" }

/-- A malformed aggregation request: a non-enum metric, an invalid start
datetime, a missing end date. -/
def badRawQuery : RawQuery :=
  { metrics := some ["banana"],
    startDate := some "junk" }

/-- A two-tenant store with readings for both tenants. -/
def sampleDb : Db :=
  { devices := [⟨"d1", "Living Room AC", "air_conditioner", "u1"⟩,
                ⟨"d2", "Other AC", "air_conditioner", "u2"⟩],
    readings := [⟨"d1", 1717250400000, some 100, none, none⟩,
                 ⟨"d1", 1717252200000, some 200, none, none⟩,
                 ⟨"d2", 1717250400000, some 999, none, none⟩] }

/-- Inversion of a failed `querySchema.parse`. -/
theorem querySchemaParse_error (raw : RawQuery) (issues : List ZodIssue)
    (h : querySchemaParse raw = .error issues) :
    issues = querySchemaIssues raw ∧ issues ≠ [] := by
  unfold querySchemaParse at h
  cases hi : querySchemaIssues raw with
  | nil => rw [hi] at h; exact Except.noConfusion h
  | cons i rest =>
    rw [hi] at h
    have : (i :: rest : List ZodIssue) = issues := by
      injection h
    exact ⟨this.symm, by rw [← this]; exact List.cons_ne_nil i rest⟩

/-- Inversion of a successful `querySchema.parse`. -/
theorem querySchemaParse_ok (raw : RawQuery) (p : QueryParams)
    (h : querySchemaParse raw = .ok p) :
    querySchemaIssues raw = [] ∧ p = buildQueryParams raw := by
  unfold querySchemaParse at h
  cases hi : querySchemaIssues raw with
  | nil =>
    rw [hi] at h
    have : buildQueryParams raw = p := by injection h
    exact ⟨rfl, this.symm⟩
  | cons i rest => rw [hi] at h; exact Except.noConfusion h

theorem mem_enumArrayIssues_path (field : String) (enum : List String)
    (l : List String) (i : ZodIssue) (h : i ∈ enumArrayIssues field enum l) :
    i.path ≠ [] := by
  unfold enumArrayIssues at h
  rcases List.mem_filterMap.mp h with ⟨a, _, hstep⟩
  split at hstep
  · exact Option.noConfusion hstep
  · have : (⟨[.key field, .idx a.1], "Invalid enum value"⟩ : ZodIssue) = i := by
      injection hstep
    rw [← this]
    exact List.cons_ne_nil _ _

theorem mem_datetimeIssues_path (field : String) (v : Option String)
    (i : ZodIssue) (h : i ∈ datetimeIssues field v) : i.path ≠ [] := by
  cases v with
  | none =>
    simp [datetimeIssues] at h
    rw [h]
    exact List.cons_ne_nil _ _
  | some s =>
    by_cases hv : isValidDatetimeZ s = true
    · simp [datetimeIssues, hv] at h
    · simp [datetimeIssues, hv] at h
      rw [h]
      exact List.cons_ne_nil _ _

theorem mem_coerceNumberIssues_path (field : String) (v : Option String)
    (i : ZodIssue) (h : i ∈ coerceNumberIssues field v) : i.path ≠ [] := by
  cases v with
  | none => simp [coerceNumberIssues] at h
  | some s =>
    cases hn : jsNumber s with
    | some q => simp [coerceNumberIssues, hn] at h
    | none =>
      simp [coerceNumberIssues, hn] at h
      rw [h]
      exact List.cons_ne_nil _ _

/-- Every issue a failed parse reports carries a field-level path. -/
theorem querySchemaIssues_paths (raw : RawQuery) :
    ∀ i ∈ querySchemaIssues raw, i.path ≠ [] := by
  intro i hi
  unfold querySchemaIssues at hi
  simp only [List.mem_append] at hi
  rcases hi with ((((((h | h) | h) | h) | h) | h) | h)
  · cases hm : raw.metrics with
    | none =>
      rw [hm] at h
      rw [List.mem_singleton.mp h]
      exact List.cons_ne_nil _ _
    | some l =>
      rw [hm] at h
      rcases List.mem_append.mp h with h2 | h2
      · exact mem_enumArrayIssues_path _ _ _ _ h2
      · split at h2
        · rw [List.mem_singleton.mp h2]
          exact List.cons_ne_nil _ _
        · exact absurd h2 (List.not_mem_nil i)
  · exact mem_datetimeIssues_path _ _ _ h
  · exact mem_datetimeIssues_path _ _ _ h
  · cases ha : raw.aggregation with
    | none => simp [ha] at h
    | some a =>
      rw [ha] at h
      by_cases hmem : a ∈ aggregationEnum
      · simp [hmem] at h
      · simp [hmem] at h
        rw [h]
        exact List.cons_ne_nil _ _
  · cases hf : raw.functions with
    | none => simp [hf] at h
    | some l =>
      rw [hf] at h
      exact mem_enumArrayIssues_path _ _ _ _ h
  · exact mem_coerceNumberIssues_path _ _ _ h
  · exact mem_coerceNumberIssues_path _ _ _ h

/-- C8 counterexample: on a well-formed request whose database query throws
(an unexpected non-validation failure), the endpoint answers 400 — the
catch-all maps every failure to 400, so nothing surfaces as a 5xx. -/
theorem C8_counterexample :
    querySchemaIssues sampleRawQuery = [] ∧
    (queryTelemetry "u1" sampleRawQuery
      (.error "connection terminated unexpectedly")).status = 400 ∧
    (queryTelemetry "u1" sampleRawQuery
      (.error "connection terminated unexpectedly")).status < 500 := by
  exact ⟨by decide, by decide, by decide⟩

/-- C8 (amended): a malformed request (failing the zod schema) is rejected
with a structured 400 response whose details carry the non-empty, field-level
issue list; an unexpected non-validation failure (such as a database error)
is caught by the same catch-all and also surfaces as a 400 carrying the
error message — never as a 5xx; a well-formed request with a healthy
database answers 200. -/
theorem C8_error_categorization (userId : String) (raw : RawQuery)
    (dbr : Except String Db) :
    (∀ issues, querySchemaParse raw = .error issues →
      queryTelemetry userId raw dbr =
        ⟨400, .queryError "Invalid query parameters" (.validation issues)⟩ ∧
      issues ≠ [] ∧ ∀ i ∈ issues, i.path ≠ []) ∧
    (∀ p e, querySchemaParse raw = .ok p → dbr = .error e →
      queryTelemetry userId raw dbr =
        ⟨400, .queryError "Invalid query parameters" (.message e)⟩) ∧
    (∀ p db, querySchemaParse raw = .ok p → dbr = .ok db →
      (queryTelemetry userId raw dbr).status = 200) := by
  refine ⟨fun issues h => ?_, fun p e hok hdb => ?_, fun p db hok hdb => ?_⟩
  · have hinv := querySchemaParse_error raw issues h
    refine ⟨?_, hinv.2, ?_⟩
    · unfold queryTelemetry
      rw [h]
    · intro i hi
      exact querySchemaIssues_paths raw i (hinv.1 ▸ hi)
  · unfold queryTelemetry
    rw [hok, hdb]
  · unfold queryTelemetry
    rw [hok, hdb]

/-- Witness for C8: the malformed `badRawQuery` is rejected 400 with its
non-empty issue list; the well-formed `sampleRawQuery` with a throwing
database is also answered 400 with the message detail. -/
theorem C8_error_categorization_witness :
    querySchemaParse badRawQuery = .error (querySchemaIssues badRawQuery) ∧
    queryTelemetry "u1" badRawQuery (.ok sampleDb) =
      ⟨400, .queryError "Invalid query parameters"
        (.validation (querySchemaIssues badRawQuery))⟩ ∧
    querySchemaIssues badRawQuery ≠ [] ∧
    queryTelemetry "u1" sampleRawQuery (.error "db down") =
      ⟨400, .queryError "Invalid query parameters" (.message "db down")⟩ := by
  have h := C8_error_categorization "u1" badRawQuery (.ok sampleDb)
  have hbad := h.1 (querySchemaIssues badRawQuery) rfl
  have h2 := C8_error_categorization "u1" sampleRawQuery (.error "db down")
  exact ⟨rfl, hbad.1, hbad.2.1,
    h2.2.1 (buildQueryParams sampleRawQuery) "db down" rfl rfl⟩

/-! ## Limit/offset are validated but never applied (C10) -/

/-- The sample request with a fractional `limit` value. -/
def fractionalLimitQuery : RawQuery :=
  { sampleRawQuery with limit := some "2.5" }

/-- C10 counterexample: the coercion is `z.coerce.number()`, not an integer
coercion — the query-string value `"2.5"` passes validation and parses to
the non-integer rational `5/2`. -/
theorem C10_counterexample :
    querySchemaParse fractionalLimitQuery =
      .ok (buildQueryParams fractionalLimitQuery) ∧
    (buildQueryParams fractionalLimitQuery).limit = mkRat 5 2 ∧
    (buildQueryParams fractionalLimitQuery).limit.den = 2 ∧
    ∀ n : ℤ, (buildQueryParams fractionalLimitQuery).limit ≠ (n : ℚ) := by
  refine ⟨rfl, by decide, by decide, ?_⟩
  intro n h
  have hd := congrArg Rat.den h
  rw [Rat.den_intCast] at hd
  have h2 : (buildQueryParams fractionalLimitQuery).limit.den = 2 := by decide
  rw [h2] at hd
  exact absurd hd (by decide)

/-- C10 (amended): `limit` and `offset` are coerced to numbers (not
necessarily integers) with defaults 100 and 0 and no 1..1000 bound, and are
never applied to the underlying query: for every pair of accepted
limit/offset values the returned data array is identical. -/
theorem C10_limit_offset_ignored (userId : String) (raw : RawQuery)
    (l1 o1 l2 o2 : Option String) (db : Db) (p1 p2 : QueryParams)
    (h1 : querySchemaParse { raw with limit := l1, offset := o1 } = .ok p1)
    (h2 : querySchemaParse { raw with limit := l2, offset := o2 } = .ok p2) :
    runAggregation userId p1 db = runAggregation userId p2 db ∧
    dataOf (queryTelemetry userId { raw with limit := l1, offset := o1 }
        (.ok db)) =
      dataOf (queryTelemetry userId { raw with limit := l2, offset := o2 }
        (.ok db)) ∧
    (l1 = none → p1.limit = 100) ∧
    (o1 = none → p1.offset = 0) ∧
    coerceNumberIssues "limit" (some "5000") = [] := by
  have e1 := (querySchemaParse_ok _ _ h1).2
  have e2 := (querySchemaParse_ok _ _ h2).2
  have hrun : runAggregation userId p1 db = runAggregation userId p2 db := by
    rw [e1, e2]
    simp [runAggregation, buildQueryParams]
  refine ⟨hrun, ?_, ?_, ?_, by decide⟩
  · have d1 : dataOf (queryTelemetry userId { raw with limit := l1, offset := o1 }
        (.ok db)) = runAggregation userId p1 db := by
      unfold queryTelemetry
      rw [h1]
      rfl
    have d2 : dataOf (queryTelemetry userId { raw with limit := l2, offset := o2 }
        (.ok db)) = runAggregation userId p2 db := by
      unfold queryTelemetry
      rw [h2]
      rfl
    rw [d1, d2, hrun]
  · intro hl
    rw [e1]
    simp [buildQueryParams, hl]
  · intro ho
    rw [e1]
    simp [buildQueryParams, ho]

/-- Witness for C10: on the two-tenant sample store, limit 1 / offset 0 and
limit 999 / offset 50 return the same data array. -/
theorem C10_limit_offset_ignored_witness :
    querySchemaParse { sampleRawQuery with limit := some "1", offset := some "0" }
      = .ok (buildQueryParams
        { sampleRawQuery with limit := some "1", offset := some "0" }) ∧
    dataOf (queryTelemetry "u1"
        { sampleRawQuery with limit := some "1", offset := some "0" }
        (.ok sampleDb)) =
      dataOf (queryTelemetry "u1"
        { sampleRawQuery with limit := some "999", offset := some "50" }
        (.ok sampleDb)) := by
  refine ⟨rfl, ?_⟩
  exact (C10_limit_offset_ignored "u1" sampleRawQuery (some "1") (some "0")
    (some "999") (some "50") sampleDb _ _ rfl rfl).2.1

/-! ## Tenant isolation of the aggregation query (C1) -/

theorem mem_dedupAux {α : Type} [DecidableEq α] {a : α} (seen l : List α)
    (h : a ∈ dedupAux seen l) : a ∈ l := by
  induction l generalizing seen with
  | nil => exact absurd h (List.not_mem_nil a)
  | cons x xs ih =>
    unfold dedupAux at h
    by_cases hx : x ∈ seen
    · rw [if_pos hx] at h
      exact List.mem_cons_of_mem x (ih _ h)
    · rw [if_neg hx] at h
      rcases List.mem_cons.mp h with h2 | h2
      · exact h2 ▸ List.mem_cons_self x xs
      · exact List.mem_cons_of_mem x (ih _ h2)

theorem mem_dedupFirst {α : Type} [DecidableEq α] {a : α} (l : List α)
    (h : a ∈ dedupFirst l) : a ∈ l :=
  mem_dedupAux [] l h

theorem mem_insertByBucket (k a : GroupKey) (l : List GroupKey)
    (h : a ∈ insertByBucket k l) : a = k ∨ a ∈ l := by
  induction l with
  | nil =>
    unfold insertByBucket at h
    rcases List.mem_singleton.mp h with h2
    exact Or.inl h2
  | cons x xs ih =>
    unfold insertByBucket at h
    split at h
    · rcases List.mem_cons.mp h with h2 | h2
      · exact Or.inr (h2 ▸ List.mem_cons_self x xs)
      · rcases ih h2 with h3 | h3
        · exact Or.inl h3
        · exact Or.inr (List.mem_cons_of_mem x h3)
    · rcases List.mem_cons.mp h with h2 | h2
      · exact Or.inl h2
      · exact Or.inr h2

theorem mem_sortByBucket {a : GroupKey} (ks : List GroupKey)
    (h : a ∈ sortByBucket ks) : a ∈ ks := by
  induction ks with
  | nil => exact absurd h (List.not_mem_nil a)
  | cons x xs ih =>
    unfold sortByBucket at h
    rcases mem_insertByBucket x a _ h with h2 | h2
    · exact h2 ▸ List.mem_cons_self x xs
    · exact List.mem_cons_of_mem x (ih h2)

/-- Every joined row pairs a stored reading with a stored device that it
belongs to, owned by the requesting user, within the requested range. -/
theorem mem_joinedRows (db : Db) (userId : String) (sMs eMs : Int)
    (dName dType : Option String) (rd : Reading × Device)
    (h : rd ∈ joinedRows db userId sMs eMs dName dType) :
    rd.1 ∈ db.readings ∧ rd.2 ∈ db.devices ∧ rd.1.device_id = rd.2.id ∧
      rd.2.user_id = userId ∧ sMs ≤ rd.1.timestamp ∧ rd.1.timestamp ≤ eMs := by
  unfold joinedRows at h
  rcases List.mem_flatten.mp h with ⟨sub, hsub, hmem⟩
  rcases List.mem_map.mp hsub with ⟨r, hr, hsubeq⟩
  rw [← hsubeq] at hmem
  rcases List.mem_map.mp hmem with ⟨d, hd, hrd⟩
  have hdev := List.mem_filter.mp hd
  have hflt := hdev.2
  simp only [decide_eq_true_eq, Bool.and_eq_true, beq_iff_eq] at hflt
  obtain ⟨⟨⟨⟨⟨hid, huser⟩, hlo⟩, hhi⟩, _⟩, _⟩ := hflt
  rw [← hrd]
  exact ⟨hr, hdev.1, hid, huser, hlo, hhi⟩

/-- C1: tenant isolation.  For every query accepted by `queryTelemetry` —
whatever device filters, metrics, date range and aggregation were supplied —
every row of the returned data comes from a reading of a device whose
`user_id` equals the authenticated principal's id. -/
theorem C1_tenant_isolation (userId : String) (raw : RawQuery) (db : Db)
    (p : QueryParams) (hp : querySchemaParse raw = .ok p) :
    ∀ row ∈ dataOf (queryTelemetry userId raw (.ok db)),
      ∃ r d, r ∈ db.readings ∧ d ∈ db.devices ∧ r.device_id = d.id ∧
        d.user_id = userId ∧
        (jsDateMs p.startDate).getD 0 ≤ r.timestamp ∧
        r.timestamp ≤ (jsDateMs p.endDate).getD 0 ∧
        row.device.id = d.id ∧ row.device.name = d.name ∧
        row.device.type = d.type := by
  intro row hrow
  have hdata : dataOf (queryTelemetry userId raw (.ok db)) =
      runAggregation userId p db := by
    unfold queryTelemetry
    rw [hp]
    rfl
  rw [hdata] at hrow
  simp only [runAggregation, runAggCore] at hrow
  rcases List.mem_map.mp hrow with ⟨k, hk, hrowk⟩
  have hk2 := mem_sortByBucket _ hk
  have hk3 := mem_dedupFirst _ hk2
  rcases List.mem_map.mp hk3 with ⟨rd, hrd, hkey⟩
  have hj := mem_joinedRows _ _ _ _ _ _ _ hrd
  refine ⟨rd.1, rd.2, hj.1, hj.2.1, hj.2.2.1, hj.2.2.2.1, hj.2.2.2.2.1,
    hj.2.2.2.2.2, ?_, ?_, ?_⟩ <;>
    (rw [← hrowk, ← hkey]; rfl)

/-- Witness for C1: on the two-tenant sample store, the accepted sample
query's rows all come from the requesting user's own device. -/
theorem C1_tenant_isolation_witness :
    querySchemaParse sampleRawQuery = .ok (buildQueryParams sampleRawQuery) ∧
    dataOf (queryTelemetry "u1" sampleRawQuery (.ok sampleDb)) ≠ [] ∧
    ∀ row ∈ dataOf (queryTelemetry "u1" sampleRawQuery (.ok sampleDb)),
      ∃ r d, r ∈ sampleDb.readings ∧ d ∈ sampleDb.devices ∧
        r.device_id = d.id ∧ d.user_id = "u1" ∧
        (jsDateMs (buildQueryParams sampleRawQuery).startDate).getD 0
          ≤ r.timestamp ∧
        r.timestamp ≤
          (jsDateMs (buildQueryParams sampleRawQuery).endDate).getD 0 ∧
        row.device.id = d.id ∧ row.device.name = d.name ∧
        row.device.type = d.type :=
  ⟨rfl, by decide, C1_tenant_isolation "u1" sampleRawQuery sampleDb
    (buildQueryParams sampleRawQuery) rfl⟩

end SmartHome
